import Mathlib

/-!
Shallow embedding of the `main_gate.rs` module of the poseidon-circuit
repository: the `RegionCtx` cursor, the `WrapValue` union, and the
`MainGate` `configure` / `apply` operations, together with a model of the
backend column store (cells, equality constraints, registered gate
polynomials) as described by the repository's external-interface contract.
Machine state is explicit: the column model is a log of cell writes plus a
list of recorded equality constraints; registered identities are a deep
expression tree evaluated per row, with unset fixed cells defaulting to the
field zero as the backend contract states.
-/

/-- Cell reference: a column identifier together with a row index
(halo2's `Cell`). Advice and fixed columns live in separate stores,
so a bare `Nat` column id suffices per kind. -/
structure CellRef where
  col : Nat
  row : Nat
  deriving DecidableEq

/-- Model of halo2's `AssignedCell<F, F>`: the (possibly unknown) value
together with the cell it was written to.  `Option F` models `Value<F>`
(`none` is `Value::unknown()`). -/
structure AssignedValue (F : Type) where
  value : Option F
  cell : CellRef
  deriving DecidableEq

/-- The `WrapValue` tagged union from `main_gate.rs`. -/
inductive WrapValue (F : Type) where
  | Assigned : AssignedValue F → WrapValue F
  | Unassigned : Option F → WrapValue F
  | Zero : WrapValue F
  deriving DecidableEq

/-- Errors surfaced by the embedded operations.  Backend rejections
(`notEnabled`, the halo2 error on a copy constraint over a column without
equality enabled) correspond to Rust `Err` returns; the other constructors
model the distinct Rust panic sites (`assert!`, iterator `unwrap`,
out-of-bounds indexing, `unimplemented!`). -/
inductive GateError where
  | notEnabled
  | assertionFailed
  | supplyExhausted
  | indexOutOfBounds
  | zeroOutputUnimplemented
  deriving DecidableEq

/-- The backend column model: append-logs of fixed and advice cell writes,
the recorded equality constraints, and the set of columns on which
equality was enabled at configure time. -/
structure Backend (F : Type) where
  fixedCells : List (CellRef × F)
  adviceCells : List (CellRef × Option F)
  eqConstraints : List (CellRef × CellRef)
  eqEnabled : List Nat
  deriving DecidableEq

/-- The `RegionCtx` cursor from `main_gate.rs`: the region (here, the
backend store it writes through) and the current row offset. -/
structure RegionCtx (F : Type) where
  backend : Backend F
  offset : Nat
  deriving DecidableEq

/-- `RegionCtx::assign_fixed`: writes `value` at `(column, offset)` in the
fixed store and returns the assigned cell. -/
def RegionCtx.assign_fixed {F : Type} (ctx : RegionCtx F) (column : Nat) (value : F) :
    RegionCtx F × AssignedValue F :=
  ({ ctx with backend := { ctx.backend with
      fixedCells := (CellRef.mk column ctx.offset, value) :: ctx.backend.fixedCells } },
   ⟨some value, ⟨column, ctx.offset⟩⟩)

/-- `RegionCtx::assign_advice`: writes a (possibly unknown) `value` at
`(column, offset)` in the advice store and returns the assigned cell. -/
def RegionCtx.assign_advice {F : Type} (ctx : RegionCtx F) (column : Nat) (value : Option F) :
    RegionCtx F × AssignedValue F :=
  ({ ctx with backend := { ctx.backend with
      adviceCells := (CellRef.mk column ctx.offset, value) :: ctx.backend.adviceCells } },
   ⟨value, ⟨column, ctx.offset⟩⟩)

/-- `RegionCtx::constrain_equal`: records an equality constraint; the
backend rejects it when either column lacks equality enablement. -/
def RegionCtx.constrain_equal {F : Type} (ctx : RegionCtx F) (c0 c1 : CellRef) :
    Except GateError (RegionCtx F) :=
  if c0.col ∈ ctx.backend.eqEnabled ∧ c1.col ∈ ctx.backend.eqEnabled then
    .ok { ctx with backend := { ctx.backend with
      eqConstraints := (c0, c1) :: ctx.backend.eqConstraints } }
  else .error .notEnabled

/-- `RegionCtx::next`: advance the cursor by one row. -/
def RegionCtx.next {F : Type} (ctx : RegionCtx F) : RegionCtx F :=
  { ctx with offset := ctx.offset + 1 }

/-- The `MainGateConfig` column layout (column ids drawn from the two
supplies at configure time).  The width `T` is `state.length`. -/
structure MainGateConfig where
  state : List Nat
  input : Nat
  out : Nat
  q_m : Nat
  q_1 : List Nat
  q_5 : List Nat
  q_i : Nat
  q_o : Nat
  rc : Nat
  deriving DecidableEq

/-- Deep embedding of halo2's `Expression` tree as built by
`MainGate::configure` (queries are all at `Rotation::cur`, so a query is
just the column id; the row is supplied at evaluation time). -/
inductive Expression (F : Type) where
  | const : F → Expression F
  | advice : Nat → Expression F
  | fixed : Nat → Expression F
  | add : Expression F → Expression F → Expression F
  | mul : Expression F → Expression F → Expression F
  deriving DecidableEq

/-- Evaluate an expression at one row, given the advice and fixed
valuations of that row. -/
def Expression.eval {F : Type} [Field F] (a f : Nat → F) : Expression F → F
  | .const c => c
  | .advice i => a i
  | .fixed i => f i
  | .add x y => x.eval a f + y.eval a f
  | .mul x y => x.eval a f * y.eval a f

/-- Model of the mutable `ConstraintSystem` handle: the registered gate
polynomials (each must vanish on every row) and the columns with equality
enabled. -/
structure ConstraintSystem (F : Type) where
  gates : List (Expression F)
  eqEnabled : List Nat
  deriving DecidableEq

/-- The `pow_5` helper from `configure`: `v2 = v * v; v2 * v2 * v`. -/
def pow_5 {F : Type} (v : Expression F) : Expression F :=
  .mul (.mul (.mul v v) (.mul v v)) v

/-- The polynomial registered by `MainGate::configure`'s single
`create_gate` call, built exactly as the source builds it:
`init = q_m * s[0] * s[1] + q_i * input + rc + q_o * out`, then a fold
adding `q_1[i] * s[i] + q_5[i] * pow_5(s[i])` for each state column. -/
def mainGatePoly {F : Type} [Field F] (cfg : MainGateConfig) : Expression F :=
  let s : List (Expression F) := cfg.state.map Expression.advice
  let inp : Expression F := .advice cfg.input
  let o : Expression F := .advice cfg.out
  let q1 : List (Expression F) := cfg.q_1.map Expression.fixed
  let q5 : List (Expression F) := cfg.q_5.map Expression.fixed
  let qm : Expression F := .fixed cfg.q_m
  let qi : Expression F := .fixed cfg.q_i
  let qo : Expression F := .fixed cfg.q_o
  let rcE : Expression F := .fixed cfg.rc
  let init : Expression F :=
    .add (.add (.add (.mul (.mul qm (s.getD 0 (.const 0))) (s.getD 1 (.const 0)))
      (.mul qi inp)) rcE) (.mul qo o)
  (((s.zip q1).zip q5).map
      (fun p => Expression.add (.mul p.1.2 p.1.1) (.mul p.2 (pow_5 p.1.1)))).foldl
    (fun acc it => .add acc it) init

/-- Draw `n` column ids from a supply; an exhausted supply is the
iterator `unwrap` panic. -/
def splitSupply (n : Nat) (l : List Nat) : Except GateError (List Nat × List Nat) :=
  if n ≤ l.length then .ok (l.take n, l.drop n) else .error .supplyExhausted

/-- `MainGate::configure`: assert the width, draw `T + 2` advice and
`2 * T + 4` fixed columns in source order, enable equality on every advice
column, and register the single gate polynomial. -/
def MainGate.configure (F : Type) [Field F] (T : Nat) (meta : ConstraintSystem F)
    (adv_cols fix_cols : List Nat) :
    Except GateError (MainGateConfig × ConstraintSystem F × List Nat × List Nat) :=
  if T < 2 then .error .assertionFailed else
  match splitSupply T adv_cols with
  | .error e => .error e
  | .ok (state, adv1) =>
    match splitSupply 2 adv1 with
    | .error e => .error e
    | .ok (io, adv2) =>
      match splitSupply T fix_cols with
      | .error e => .error e
      | .ok (q1, fix1) =>
        match splitSupply T fix1 with
        | .error e => .error e
        | .ok (q5, fix2) =>
          match splitSupply 4 fix2 with
          | .error e => .error e
          | .ok (qrest, fix3) =>
            let cfg : MainGateConfig :=
              ⟨state, io.getD 0 0, io.getD 1 0, qrest.getD 0 0, q1, q5,
                qrest.getD 1 0, qrest.getD 2 0, qrest.getD 3 0⟩
            let meta' : ConstraintSystem F :=
              { gates := meta.gates ++ [mainGatePoly cfg],
                eqEnabled := meta.eqEnabled ++ state ++ [cfg.input, cfg.out] }
            .ok (cfg, meta', adv2, fix3)

/-- The per-state-column terms of the identity as the specification
states them: `q_1[i] * state[i] + q_5[i] * state[i]^5`.  Truncates at the
shortest list, as the source's `zip` does. -/
def specTerms {F : Type} [Field F] : List F → List F → List F → List F
  | s :: ss, a :: as1, b :: bs =>
      (a * s + b * s ^ 5) :: specTerms ss as1 bs
  | _, _, _ => []

/-- The row identity exactly as the specification writes it:
`q_m * s[0] * s[1] + Σ_i (q_1[i] * s[i] + q_5[i] * s[i]^5) + q_i * input +
q_o * out + rc`. -/
def specRowIdentity {F : Type} [Field F] (qm : F) (s q1 q5 : List F)
    (qi inp qo outv rcv : F) : F :=
  qm * s.getD 0 0 * s.getD 1 0 + (specTerms s q1 q5).sum + qi * inp + qo * outv + rcv

/-- Lookup in an assignment log; the most recent write to a cell wins. -/
def lookupCell {α : Type} : List (CellRef × α) → CellRef → Option α
  | [], _ => none
  | e :: es, c => if e.1 = c then some e.2 else lookupCell es c

/-- The value a fixed cell contributes to the identity: the written value
if any, else the backend's field-zero default for unset fixed cells. -/
def fixedValD {F : Type} [Field F] (b : Backend F) (c : CellRef) : F :=
  (lookupCell b.fixedCells c).getD 0

/-- The registered identities hold at one row of a backend under an advice
valuation `a` for that row. -/
def rowSatisfied {F : Type} [Field F] (gates : List (Expression F))
    (b : Backend F) (row : Nat) (a : Nat → F) : Prop :=
  ∀ g ∈ gates, g.eval a (fun c => fixedValD b ⟨c, row⟩) = 0

instance {F : Type} [Field F] [DecidableEq F] (gates : List (Expression F))
    (b : Backend F) (row : Nat) (a : Nat → F) :
    Decidable (rowSatisfied gates b row a) := by
  unfold rowSatisfied; infer_instance

/-- An advice valuation agrees with one logged advice write: whenever the
write carried a known value, the valuation matches it. -/
def cellAgrees {F : Type} (a : Nat → F) (e : CellRef × Option F) : Prop :=
  a e.1.col = e.2.getD (a e.1.col)

instance {F : Type} [DecidableEq F] (a : Nat → F) (e : CellRef × Option F) :
    Decidable (cellAgrees a e) := by
  unfold cellAgrees; infer_instance

/-- An advice valuation for a row extends what a backend wrote into that
row: it agrees with every known advice value logged at that row. -/
def extendsRow {F : Type} (b : Backend F) (row : Nat) (a : Nat → F) : Prop :=
  ∀ e ∈ b.adviceCells, e.1.row = row → cellAgrees a e

instance {F : Type} [DecidableEq F] (b : Backend F) (row : Nat) (a : Nat → F) :
    Decidable (extendsRow b row a) :=
  List.decidableBAll _ b.adviceCells

/-- A full advice assignment (over all cells) is accepted: every
registered gate vanishes on every row, and every recorded equality
constraint holds. -/
def accepts {F : Type} [Field F] (gates : List (Expression F)) (b : Backend F)
    (asg : CellRef → F) : Prop :=
  (∀ g ∈ gates, ∀ row : Nat,
      g.eval (fun c => asg ⟨c, row⟩) (fun c => fixedValD b ⟨c, row⟩) = 0) ∧
  ∀ p ∈ b.eqConstraints, asg p.1 = asg p.2

/-- Two cursors that agree on the offset, the advice log, the recorded
constraints, the equality enablement, and on the default-zero reading of
every fixed cell.  A row whose omitted selector is instead written as the
explicit field zero stays in this relation with the omitted-selector
row. -/
def ctxREq {F : Type} [Field F] (c1 c2 : RegionCtx F) : Prop :=
  c1.offset = c2.offset ∧
  c1.backend.adviceCells = c2.backend.adviceCells ∧
  c1.backend.eqConstraints = c2.backend.eqConstraints ∧
  c1.backend.eqEnabled = c2.backend.eqEnabled ∧
  ∀ cell : CellRef, fixedValD c1.backend cell = fixedValD c2.backend cell

/-- The `q_1` loop of `apply`: write each provided value into the matching
selector column of the current row; a value list longer than the column
list is the Rust out-of-bounds indexing panic. -/
def writeFixedSeq {F : Type} (cols : List Nat) (vals : List F) (ctx : RegionCtx F) :
    RegionCtx F × Except GateError Unit :=
  match vals, cols with
  | [], _ => (ctx, .ok ())
  | _ :: _, [] => (ctx, .error .indexOutOfBounds)
  | v :: vs, c :: cs => writeFixedSeq cs vs (ctx.assign_fixed c v).1

/-- Step (1) of `apply`: the optional `q_1` vector. -/
def writeQ1 {F : Type} (cfg : MainGateConfig) (q1 : Option (List F))
    (ctx : RegionCtx F) : RegionCtx F × Except GateError Unit :=
  match q1 with
  | none => (ctx, .ok ())
  | some l => writeFixedSeq cfg.q_1 l ctx

/-- Steps (2) and (4) of `apply`: an optional single fixed write
(`q_m`, `rc`). -/
def writeOptFixed {F : Type} (column : Nat) (v : Option F) (ctx : RegionCtx F) :
    RegionCtx F :=
  match v with
  | none => ctx
  | some x => (ctx.assign_fixed column x).1

/-- The state loop of `apply`: `Unassigned` is written directly,
`Assigned` is re-written and copy-constrained to the original cell, and
`Zero` is skipped (`_ => {}`). -/
def writeStateSeq {F : Type} (cols : List Nat) (vals : List (WrapValue F))
    (ctx : RegionCtx F) : RegionCtx F × Except GateError Unit :=
  match vals, cols with
  | [], _ => (ctx, .ok ())
  | _ :: _, [] => (ctx, .error .indexOutOfBounds)
  | .Unassigned vv :: vs, c :: cs => writeStateSeq cs vs (ctx.assign_advice c vv).1
  | .Assigned avv :: vs, c :: cs =>
      let p := ctx.assign_advice c avv.value
      match p.1.constrain_equal p.2.cell avv.cell with
      | .ok ctx2 => writeStateSeq cs vs ctx2
      | .error e => (p.1, .error e)
  | .Zero :: vs, _ :: cs => writeStateSeq cs vs ctx

/-- Step (3) of `apply`: the optional state vector. -/
def writeState {F : Type} (cfg : MainGateConfig)
    (st : Option (List (WrapValue F))) (ctx : RegionCtx F) :
    RegionCtx F × Except GateError Unit :=
  match st with
  | none => (ctx, .ok ())
  | some vs => writeStateSeq cfg.state vs ctx

/-- Step (6) of `apply`: assign the output `WrapValue` into the `out`
column; `Zero` is the `unimplemented!()` branch and writes nothing. -/
def writeOut {F : Type} (cfg : MainGateConfig) (w : WrapValue F)
    (ctx : RegionCtx F) : RegionCtx F × Except GateError (AssignedValue F) :=
  match w with
  | .Unassigned vv =>
      let p := ctx.assign_advice cfg.out vv
      (p.1, .ok p.2)
  | .Assigned avv =>
      let p := ctx.assign_advice cfg.out avv.value
      match p.1.constrain_equal p.2.cell avv.cell with
      | .ok ctx2 => (ctx2, .ok p.2)
      | .error e => (p.1, .error e)
  | .Zero => (ctx, .error .zeroOutputUnimplemented)

/-- Sequence two fallible row-writing steps, keeping the state reached so
far when the first fails (the Rust `?` operator does not roll back). -/
def pseq {F : Type} {α : Type} (m : RegionCtx F × Except GateError Unit)
    (k : RegionCtx F → RegionCtx F × Except GateError α) :
    RegionCtx F × Except GateError α :=
  match m with
  | (ctx, .ok _) => k ctx
  | (ctx, .error e) => (ctx, .error e)

/-- `MainGate::apply`: fill the current row in source order — `q_1`, `q_m`,
state, `rc`, the mandatory `q_o`, the output — then advance the cursor on
success. -/
def MainGate.apply {F : Type} (cfg : MainGateConfig) (ctx : RegionCtx F)
    (state : Option (List F) × Option F × Option (List (WrapValue F)))
    (rc : Option F) (out : F × WrapValue F) :
    RegionCtx F × Except GateError (AssignedValue F) :=
  pseq (writeQ1 cfg state.1 ctx) fun ctx1 =>
  let ctx2 := writeOptFixed cfg.q_m state.2.1 ctx1
  pseq (writeState cfg state.2.2 ctx2) fun ctx3 =>
  let ctx4 := writeOptFixed cfg.rc rc ctx3
  let ctx5 := (ctx4.assign_fixed cfg.q_o out.1).1
  match writeOut cfg out.2 ctx5 with
  | (ctx6, .ok res) => (ctx6.next, .ok res)
  | (ctx6, .error e) => (ctx6, .error e)

/-- Whether an `Except` result is a success. -/
def exceptOk {ε α : Type} : Except ε α → Bool
  | .ok _ => true
  | .error _ => false

/-- The argument tuple of one `apply` call. -/
structure ApplyArgs (F : Type) where
  q1 : Option (List F)
  qm : Option F
  st : Option (List (WrapValue F))
  rcv : Option F
  qo : F
  outw : WrapValue F
  deriving DecidableEq

/-- One call in a `RegionCtx` call sequence: a `next`, or an `apply`. -/
inductive GateOp (F : Type) where
  | next : GateOp F
  | app : ApplyArgs F → GateOp F
  deriving DecidableEq

/-- Run one call against a cursor. -/
def stepOp {F : Type} (cfg : MainGateConfig) (ctx : RegionCtx F) :
    GateOp F → RegionCtx F
  | .next => ctx.next
  | .app a => (MainGate.apply cfg ctx (a.q1, a.qm, a.st) a.rcv (a.qo, a.outw)).1

/-- Run a call sequence left to right. -/
def runOps {F : Type} (cfg : MainGateConfig) :
    List (GateOp F) → RegionCtx F → RegionCtx F
  | [], ctx => ctx
  | op :: ops, ctx => runOps cfg ops (stepOp cfg ctx op)

/-- A call advances the cursor when it is a `next`, or an `apply` that
succeeded. -/
def opAdvances {F : Type} (cfg : MainGateConfig) (ctx : RegionCtx F) :
    GateOp F → Bool
  | .next => true
  | .app a => exceptOk (MainGate.apply cfg ctx (a.q1, a.qm, a.st) a.rcv (a.qo, a.outw)).2

/-- Number of advancing calls in a sequence. -/
def advancesCount {F : Type} (cfg : MainGateConfig) :
    List (GateOp F) → RegionCtx F → Nat
  | [], _ => 0
  | op :: ops, ctx =>
      (if opAdvances cfg ctx op then 1 else 0) + advancesCount cfg ops (stepOp cfg ctx op)

/-- The rows targeted by the `apply` calls of a sequence. -/
def applyTargets {F : Type} (cfg : MainGateConfig) :
    List (GateOp F) → RegionCtx F → List Nat
  | [], _ => []
  | .next :: ops, ctx => applyTargets cfg ops ctx.next
  | .app a :: ops, ctx =>
      ctx.offset :: applyTargets cfg ops (stepOp cfg ctx (.app a))

/-- Every `apply` in the sequence succeeds. -/
def allOk {F : Type} (cfg : MainGateConfig) :
    List (GateOp F) → RegionCtx F → Bool
  | [], _ => true
  | .next :: ops, ctx => allOk cfg ops ctx.next
  | .app a :: ops, ctx =>
      exceptOk (MainGate.apply cfg ctx (a.q1, a.qm, a.st) a.rcv (a.qo, a.outw)).2 &&
        allOk cfg ops (stepOp cfg ctx (.app a))

/-- The block of fixed-cell writes a selector loop performs, newest
first. -/
def revZipF {F : Type} (cols : List Nat) (vals : List F) (row : Nat) :
    List (CellRef × F) :=
  ((cols.zip vals).map (fun p => (CellRef.mk p.1 row, p.2))).reverse

/-- The block of advice-cell writes an all-`Unassigned` state loop
performs, newest first. -/
def revZipA {F : Type} (cols : List Nat) (vals : List F) (row : Nat) :
    List (CellRef × Option F) :=
  ((cols.zip vals).map (fun p => (CellRef.mk p.1 row, some p.2))).reverse

/-- The column layout a successful `configure` run produces, written in
terms of the two supplies. -/
def configuredCfg (T : Nat) (adv fix : List Nat) : MainGateConfig :=
  ⟨adv.take T, ((adv.drop T).take 2).getD 0 0, ((adv.drop T).take 2).getD 1 0,
   (((fix.drop T).drop T).take 4).getD 0 0, fix.take T, (fix.drop T).take T,
   (((fix.drop T).drop T).take 4).getD 1 0, (((fix.drop T).drop T).take 4).getD 2 0,
   (((fix.drop T).drop T).take 4).getD 3 0⟩

/-- Concrete field for witnesses and counterexamples. -/
abbrev F5 := ZMod 5

instance : Fact (Nat.Prime 5) := ⟨by norm_num⟩

/-- The configuration produced by `configure` at width 2 from the supplies
`[0, 1, 2, 3]` and `[4, ..., 11]`. -/
def exCfg : MainGateConfig := ⟨[0, 1], 2, 3, 8, [4, 5], [6, 7], 9, 10, 11⟩

/-- The constraint-system state after that `configure` run. -/
def exMeta : ConstraintSystem F5 := ⟨[mainGatePoly exCfg], [0, 1, 2, 3]⟩

/-- A fresh backend whose equality-enabled columns are the advice columns
of `exCfg`. -/
def exBackend : Backend F5 := ⟨[], [], [], [0, 1, 2, 3]⟩

/-- A cursor over the fresh backend at row 0. -/
def exCtx : RegionCtx F5 := ⟨exBackend, 0⟩

theorem eval_pow_5 {F : Type} [Field F] (a f : Nat → F) (e : Expression F) :
    (pow_5 e).eval a f = e.eval a f ^ 5 := by
  simp only [pow_5, Expression.eval]
  ring

theorem eval_foldl_add {F : Type} [Field F] (a f : Nat → F)
    (l : List (Expression F)) (init : Expression F) :
    (l.foldl (fun acc it => .add acc it) init).eval a f =
      init.eval a f + (l.map (Expression.eval a f)).sum := by
  induction l generalizing init with
  | nil => simp
  | cons x xs ih =>
      simp only [List.foldl_cons, List.map_cons, List.sum_cons]
      rw [ih]
      simp only [Expression.eval]
      ring

theorem map_eval_terms {F : Type} [Field F] (a f : Nat → F)
    (sc q1c q5c : List Nat) :
    ((((sc.map Expression.advice).zip (q1c.map Expression.fixed)).zip
        (q5c.map Expression.fixed)).map
      (fun p => Expression.add (.mul p.1.2 p.1.1) (.mul p.2 (pow_5 p.1.1)))).map
        (Expression.eval a f) =
      specTerms (sc.map a) (q1c.map f) (q5c.map f) := by
  induction sc generalizing q1c q5c with
  | nil => simp [specTerms]
  | cons s ss ih =>
      cases q1c with
      | nil => simp [specTerms]
      | cons q1 q1s =>
          cases q5c with
          | nil => simp [specTerms]
          | cons q5 q5s =>
              simp only [List.map_cons, List.zip_cons_cons, specTerms]
              rw [← ih q1s q5s]
              simp only [Expression.eval, eval_pow_5, List.map_cons]
              congr 1
              ring

theorem eval_getD_advice {F : Type} [Field F] (a f : Nat → F)
    (l : List Nat) (i : Nat) :
    Expression.eval a f ((l.map Expression.advice).getD i (.const 0)) =
      (l.map a).getD i 0 := by
  induction l generalizing i with
  | nil => simp [Expression.eval]
  | cons x xs ih =>
      cases i with
      | zero => simp [Expression.eval]
      | succ j => simpa using ih j

/-- Evaluating the registered polynomial at any row valuation gives the
specification's identity applied to that row's values. -/
theorem mainGatePoly_eval {F : Type} [Field F] (cfg : MainGateConfig)
    (a f : Nat → F) :
    (mainGatePoly cfg).eval a f =
      specRowIdentity (f cfg.q_m) (cfg.state.map a) (cfg.q_1.map f)
        (cfg.q_5.map f) (f cfg.q_i) (a cfg.input) (f cfg.q_o) (a cfg.out)
        (f cfg.rc) := by
  unfold mainGatePoly specRowIdentity
  rw [eval_foldl_add, map_eval_terms]
  simp only [Expression.eval, eval_getD_advice]
  ring

theorem getD_take (l : List Nat) (n i : Nat) (h : i < n) :
    (l.take n).getD i 0 = l.getD i 0 := by
  induction l generalizing n i with
  | nil => simp
  | cons x xs ih =>
      cases n with
      | zero => omega
      | succ m =>
          cases i with
          | zero => simp
          | succ j =>
              rw [List.take_succ_cons, List.getD_cons_succ, List.getD_cons_succ]
              exact ih m j (by omega)

theorem getD_drop (l : List Nat) (n i : Nat) :
    (l.drop n).getD i 0 = l.getD (n + i) 0 := by
  induction l generalizing n with
  | nil => simp
  | cons x xs ih =>
      cases n with
      | zero => simp
      | succ m =>
          rw [List.drop_succ_cons, ih m]
          have hni : m + 1 + i = (m + i) + 1 := by omega
          rw [hni, List.getD_cons_succ]

theorem drop_drop_add (l : List Nat) (n m : Nat) :
    (l.drop n).drop m = l.drop (n + m) := by
  induction n generalizing l with
  | zero => simp
  | succ k ih =>
      cases l with
      | nil => simp
      | cons x xs =>
          rw [List.drop_succ_cons, ih xs]
          have hnm : k + 1 + m = (k + m) + 1 := by omega
          rw [hnm, List.drop_succ_cons]

theorem splitSupply_ok {n : Nat} {l : List Nat} (h : n ≤ l.length) :
    splitSupply n l = .ok (l.take n, l.drop n) := by
  simp [splitSupply, h]

theorem splitSupply_error {n : Nat} {l : List Nat} {e : GateError}
    (h : splitSupply n l = .error e) : e = .supplyExhausted := by
  unfold splitSupply at h
  split at h <;> simp_all

/-- Closed form of a successful `configure` run. -/
theorem configure_ok {F : Type} [Field F] (T : Nat) (meta : ConstraintSystem F)
    (adv fix : List Nat) (h2 : 2 ≤ T) (hadv : T + 2 ≤ adv.length)
    (hfix : 2 * T + 4 ≤ fix.length) :
    MainGate.configure F T meta adv fix = .ok
      (configuredCfg T adv fix,
       ⟨meta.gates ++ [mainGatePoly (configuredCfg T adv fix)],
        meta.eqEnabled ++ adv.take T ++
          [(configuredCfg T adv fix).input, (configuredCfg T adv fix).out]⟩,
       (adv.drop T).drop 2, ((fix.drop T).drop T).drop 4) := by
  have hT : ¬ T < 2 := by omega
  have e1 : splitSupply T adv = .ok (adv.take T, adv.drop T) :=
    splitSupply_ok (by omega)
  have e2 : splitSupply 2 (adv.drop T) =
      .ok ((adv.drop T).take 2, (adv.drop T).drop 2) :=
    splitSupply_ok (by rw [List.length_drop]; omega)
  have e3 : splitSupply T fix = .ok (fix.take T, fix.drop T) :=
    splitSupply_ok (by omega)
  have e4 : splitSupply T (fix.drop T) =
      .ok ((fix.drop T).take T, (fix.drop T).drop T) :=
    splitSupply_ok (by rw [List.length_drop]; omega)
  have e5 : splitSupply 4 ((fix.drop T).drop T) =
      .ok (((fix.drop T).drop T).take 4, ((fix.drop T).drop T).drop 4) :=
    splitSupply_ok (by rw [List.length_drop, List.length_drop]; omega)
  simp only [MainGate.configure, if_neg hT, e1, e2, e3, e4, e5]
  rfl

/-- C2: `MainGate::configure` registers exactly one polynomial identity
(the gate list grows by a single polynomial), and substituting any row
valuation into that polynomial gives
`q_m*s0*s1 + Σ_i (q_1[i]*s[i] + q_5[i]*s[i]^5) + q_i*input + q_o*out + rc`,
the identity the specification states for every row. -/
theorem configure_registers_single_row_identity {F : Type} [Field F]
    (T : Nat) (meta meta' : ConstraintSystem F) (adv fix advR fixR : List Nat)
    (cfg : MainGateConfig)
    (h : MainGate.configure F T meta adv fix = .ok (cfg, meta', advR, fixR)) :
    meta'.gates = meta.gates ++ [mainGatePoly cfg] ∧
    ∀ a f : Nat → F, (mainGatePoly cfg).eval a f =
      specRowIdentity (f cfg.q_m) (cfg.state.map a) (cfg.q_1.map f)
        (cfg.q_5.map f) (f cfg.q_i) (a cfg.input) (f cfg.q_o) (a cfg.out)
        (f cfg.rc) := by
  refine ⟨?_, fun a f => mainGatePoly_eval cfg a f⟩
  unfold MainGate.configure at h
  split at h
  · simp at h
  · split at h
    · simp at h
    · split at h
      · simp at h
      · split at h
        · simp at h
        · split at h
          · simp at h
          · split at h
            · simp at h
            · simp only [Except.ok.injEq, Prod.mk.injEq] at h
              obtain ⟨hcfg, hmeta, _, _⟩ := h
              subst hcfg
              rw [← hmeta]

/-- C2 witness: the width-2 `configure` run over the supplies
`[0,1,2,3]` / `[4..11]`. -/
theorem configure_registers_single_row_identity_witness :
    exMeta.gates = ([] : List (Expression F5)) ++ [mainGatePoly exCfg] ∧
    ∀ a f : Nat → F5, (mainGatePoly exCfg).eval a f =
      specRowIdentity (f exCfg.q_m) (exCfg.state.map a) (exCfg.q_1.map f)
        (exCfg.q_5.map f) (f exCfg.q_i) (a exCfg.input) (f exCfg.q_o)
        (a exCfg.out) (f exCfg.rc) :=
  configure_registers_single_row_identity 2 ⟨[], []⟩ exMeta [0, 1, 2, 3]
    [4, 5, 6, 7, 8, 9, 10, 11] [] [] exCfg (by rfl)

/-- C8: a successful `configure` run drew exactly `T + 2` advice columns
(`state`, then `input`, then `out`) and exactly `2T + 4` fixed columns
(`q_1`, `q_5`, `q_m`, `q_i`, `q_o`, `rc`) in order from the supplies, and
enabled equality on precisely the advice columns it drew. -/
theorem configure_allocates_columns {F : Type} [Field F]
    (T : Nat) (meta meta' : ConstraintSystem F) (adv fix advR fixR : List Nat)
    (cfg : MainGateConfig) (h2 : 2 ≤ T) (hadv : T + 2 ≤ adv.length)
    (hfix : 2 * T + 4 ≤ fix.length)
    (h : MainGate.configure F T meta adv fix = .ok (cfg, meta', advR, fixR)) :
    cfg.state = adv.take T ∧ cfg.input = adv.getD T 0 ∧
    cfg.out = adv.getD (T + 1) 0 ∧ advR = adv.drop (T + 2) ∧
    cfg.q_1 = fix.take T ∧ cfg.q_5 = (fix.drop T).take T ∧
    cfg.q_m = fix.getD (2 * T) 0 ∧ cfg.q_i = fix.getD (2 * T + 1) 0 ∧
    cfg.q_o = fix.getD (2 * T + 2) 0 ∧ cfg.rc = fix.getD (2 * T + 3) 0 ∧
    fixR = fix.drop (2 * T + 4) ∧ cfg.state.length = T ∧
    cfg.q_1.length = T ∧ cfg.q_5.length = T ∧
    meta'.eqEnabled = meta.eqEnabled ++ cfg.state ++ [cfg.input, cfg.out] := by
  rw [configure_ok T meta adv fix h2 hadv hfix] at h
  simp only [Except.ok.injEq, Prod.mk.injEq] at h
  obtain ⟨hcfg, hmeta, hadvR, hfixR⟩ := h
  subst hcfg
  subst hmeta
  subst hadvR
  subst hfixR
  unfold configuredCfg
  have hd1 : ∀ i, i < 2 → ((adv.drop T).take 2).getD i 0 = adv.getD (T + i) 0 := by
    intro i hi
    rw [getD_take _ 2 i hi, getD_drop]
  have hd2 : ∀ i, i < 4 →
      (((fix.drop T).drop T).take 4).getD i 0 = fix.getD (2 * T + i) 0 := by
    intro i hi
    rw [getD_take _ 4 i hi, getD_drop, getD_drop]
    congr 1
    omega
  refine ⟨rfl, ?_, ?_, ?_, rfl, rfl, ?_, ?_, ?_, ?_, ?_, ?_, ?_, ?_, rfl⟩
  · simp
  · exact hd1 1 (by omega)
  · exact drop_drop_add adv T 2
  · simpa using hd2 0 (by omega)
  · exact hd2 1 (by omega)
  · exact hd2 2 (by omega)
  · exact hd2 3 (by omega)
  · rw [drop_drop_add, drop_drop_add]
    congr 1
    omega
  · rw [List.length_take]
    omega
  · rw [List.length_take]
    omega
  · rw [List.length_take, List.length_drop]
    omega

/-- C8 witness: the concrete width-2 run. -/
theorem configure_allocates_columns_witness :
    exCfg.state = [0, 1, 2, 3].take 2 ∧ exCfg.input = [0, 1, 2, 3].getD 2 0 ∧
    exCfg.out = [0, 1, 2, 3].getD 3 0 ∧ ([] : List Nat) = [0, 1, 2, 3].drop 4 ∧
    exCfg.q_1 = [4, 5, 6, 7, 8, 9, 10, 11].take 2 ∧
    exCfg.q_5 = ([4, 5, 6, 7, 8, 9, 10, 11].drop 2).take 2 ∧
    exCfg.q_m = [4, 5, 6, 7, 8, 9, 10, 11].getD 4 0 ∧
    exCfg.q_i = [4, 5, 6, 7, 8, 9, 10, 11].getD 5 0 ∧
    exCfg.q_o = [4, 5, 6, 7, 8, 9, 10, 11].getD 6 0 ∧
    exCfg.rc = [4, 5, 6, 7, 8, 9, 10, 11].getD 7 0 ∧
    ([] : List Nat) = [4, 5, 6, 7, 8, 9, 10, 11].drop 8 ∧
    exCfg.state.length = 2 ∧ exCfg.q_1.length = 2 ∧ exCfg.q_5.length = 2 ∧
    exMeta.eqEnabled = ([] : List Nat) ++ exCfg.state ++ [exCfg.input, exCfg.out] :=
  configure_allocates_columns 2 ⟨[], []⟩ exMeta [0, 1, 2, 3]
    [4, 5, 6, 7, 8, 9, 10, 11] [] [] exCfg (by omega) (by decide) (by decide)
    (by rfl)

theorem configure_no_assertion_of_width {F : Type} [Field F] (T : Nat)
    (meta : ConstraintSystem F) (adv fix : List Nat) (h2 : 2 ≤ T) :
    MainGate.configure F T meta adv fix ≠ .error .assertionFailed := by
  unfold MainGate.configure
  rw [if_neg (by omega)]
  rcases hS1 : splitSupply T adv with e1 | ⟨st, adv1⟩
  · have he := splitSupply_error hS1
    subst he
    simp [hS1]
  · simp only [hS1]
    rcases hS2 : splitSupply 2 adv1 with e2 | ⟨io, adv2⟩
    · have he := splitSupply_error hS2
      subst he
      simp [hS2]
    · simp only [hS2]
      rcases hS3 : splitSupply T fix with e3 | ⟨q1, fix1⟩
      · have he := splitSupply_error hS3
        subst he
        simp [hS3]
      · simp only [hS3]
        rcases hS4 : splitSupply T fix1 with e4 | ⟨q5, fix2⟩
        · have he := splitSupply_error hS4
          subst he
          simp [hS4]
        · simp only [hS4]
          rcases hS5 : splitSupply 4 fix2 with e5 | ⟨qrest, fix3⟩
          · have he := splitSupply_error hS5
            subst he
            simp [hS5]
          · simp [hS5]

/-- C9: `T < 2` fails the width assertion at configure time, producing the
assertion error and nothing else (no columns, no registered identity: the
error carries no configuration or constraint-system result); `T ≥ 2`
passes the width check — the assertion error is impossible — and with
sufficient supplies `configure` succeeds. -/
theorem configure_width_check {F : Type} [Field F] (T : Nat)
    (meta : ConstraintSystem F) (adv fix : List Nat) :
    (T < 2 → MainGate.configure F T meta adv fix = .error .assertionFailed) ∧
    (2 ≤ T → MainGate.configure F T meta adv fix ≠ .error .assertionFailed) ∧
    (2 ≤ T → T + 2 ≤ adv.length → 2 * T + 4 ≤ fix.length →
      exceptOk (MainGate.configure F T meta adv fix) = true) := by
  refine ⟨?_, ?_, ?_⟩
  · intro h
    unfold MainGate.configure
    rw [if_pos h]
  · intro h
    exact configure_no_assertion_of_width T meta adv fix h
  · intro h2 ha hf
    rw [configure_ok T meta adv fix h2 ha hf]
    rfl

/-- C9 witness: width 1 fails the assertion; width 2 passes it and
succeeds on adequate supplies. -/
theorem configure_width_check_witness :
    MainGate.configure F5 1 ⟨[], []⟩ [0, 1, 2, 3] [4, 5, 6, 7, 8, 9, 10, 11] =
      .error .assertionFailed ∧
    MainGate.configure F5 2 ⟨[], []⟩ [0, 1, 2, 3] [4, 5, 6, 7, 8, 9, 10, 11] ≠
      .error .assertionFailed ∧
    exceptOk (MainGate.configure F5 2 ⟨[], []⟩ [0, 1, 2, 3]
      [4, 5, 6, 7, 8, 9, 10, 11]) = true :=
  ⟨(configure_width_check 1 ⟨[], []⟩ [0, 1, 2, 3]
      [4, 5, 6, 7, 8, 9, 10, 11]).1 (by omega),
   (configure_width_check (F := F5) 2 ⟨[], []⟩ [0, 1, 2, 3]
      [4, 5, 6, 7, 8, 9, 10, 11]).2.1 (by omega),
   (configure_width_check (F := F5) 2 ⟨[], []⟩ [0, 1, 2, 3]
      [4, 5, 6, 7, 8, 9, 10, 11]).2.2 (by omega) (by decide) (by decide)⟩

theorem lookupCell_cons_self {α : Type} (l : List (CellRef × α)) (c : CellRef)
    (v : α) : lookupCell ((c, v) :: l) c = some v := by
  simp [lookupCell]

theorem lookupCell_cons_ne {α : Type} (l : List (CellRef × α)) (c c' : CellRef)
    (v : α) (h : c ≠ c') : lookupCell ((c, v) :: l) c' = lookupCell l c' := by
  simp [lookupCell, h]

theorem lookupCell_append_none {α : Type} (xs ys : List (CellRef × α))
    (c : CellRef) (h : lookupCell xs c = none) :
    lookupCell (xs ++ ys) c = lookupCell ys c := by
  induction xs with
  | nil => simp
  | cons e es ih =>
      by_cases he : e.1 = c
      · simp [lookupCell, he] at h
      · simp only [List.cons_append, lookupCell, if_neg he] at h ⊢
        exact ih h

theorem lookupCell_append_some {α : Type} (xs ys : List (CellRef × α))
    (c : CellRef) (v : α) (h : lookupCell xs c = some v) :
    lookupCell (xs ++ ys) c = some v := by
  induction xs with
  | nil => simp [lookupCell] at h
  | cons e es ih =>
      by_cases he : e.1 = c
      · simp only [lookupCell, if_pos he] at h
        simp only [List.cons_append, lookupCell, if_pos he]
        exact h
      · simp only [lookupCell, if_neg he] at h
        simp only [List.cons_append, lookupCell, if_neg he]
        exact ih h

theorem getD_map_lt {F : Type} [Field F] (l : List Nat) (f : Nat → F) (j : Nat)
    (h : j < l.length) : (l.map f).getD j 0 = f (l.getD j 0) := by
  induction l generalizing j with
  | nil => simp at h
  | cons x xs ih =>
      cases j with
      | zero => simp
      | succ k =>
          simp only [List.map_cons, List.getD_cons_succ]
          exact ih k (by simpa using h)

theorem getD_mem {l : List Nat} {j : Nat} (h : j < l.length) : l.getD j 0 ∈ l := by
  induction l generalizing j with
  | nil => simp at h
  | cons x xs ih =>
      cases j with
      | zero => simp
      | succ k =>
          simp only [List.getD_cons_succ]
          exact List.mem_cons_of_mem _ (ih (by simpa using h))

theorem list_eq_of_getD {F : Type} (d : F) : ∀ (xs ys : List F),
    xs.length = ys.length →
    (∀ j, j < xs.length → xs.getD j d = ys.getD j d) → xs = ys
  | [], [], _, _ => rfl
  | [], _ :: _, hlen, _ => by simp at hlen
  | _ :: _, [], hlen, _ => by simp at hlen
  | x :: xs, y :: ys, hlen, h => by
      have h0 := h 0 (by simp)
      simp only [List.getD_cons_zero] at h0
      have ht := list_eq_of_getD d xs ys (by simpa using hlen)
        (fun j hj => by simpa using h (j + 1) (by simpa using hj))
      rw [h0, ht]

/-- Structural form of the `q_1` loop: it prepends exactly the reversed
zip of columns and values at the current row, and succeeds iff the value
list does not outrun the column list. -/
theorem writeFixedSeq_eq {F : Type} (vals : List F) : ∀ (cols : List Nat)
    (ctx : RegionCtx F),
    writeFixedSeq cols vals ctx =
      ({ ctx with backend := { ctx.backend with
          fixedCells := revZipF cols vals ctx.offset ++ ctx.backend.fixedCells } },
       if vals.length ≤ cols.length then .ok () else .error .indexOutOfBounds) := by
  induction vals with
  | nil =>
      intro cols ctx
      simp [writeFixedSeq, revZipF]
  | cons v vs ih =>
      intro cols ctx
      cases cols with
      | nil => simp [writeFixedSeq, revZipF]
      | cons c cs =>
          have hstep : writeFixedSeq (c :: cs) (v :: vs) ctx =
              writeFixedSeq cs vs (ctx.assign_fixed c v).1 := rfl
          rw [hstep, ih]
          simp [RegionCtx.assign_fixed, revZipF, Nat.succ_le_succ_iff]

/-- Structural form of an all-`Unassigned` state loop. -/
theorem writeStateSeq_unassigned_eq {F : Type} (vals : List F) :
    ∀ (cols : List Nat) (ctx : RegionCtx F),
    writeStateSeq cols (vals.map fun v => WrapValue.Unassigned (some v)) ctx =
      ({ ctx with backend := { ctx.backend with
          adviceCells := revZipA cols vals ctx.offset ++ ctx.backend.adviceCells } },
       if vals.length ≤ cols.length then .ok () else .error .indexOutOfBounds) := by
  induction vals with
  | nil =>
      intro cols ctx
      simp [writeStateSeq, revZipA]
  | cons v vs ih =>
      intro cols ctx
      cases cols with
      | nil => simp [writeStateSeq, revZipA]
      | cons c cs =>
          have hstep : writeStateSeq (c :: cs)
              ((v :: vs).map fun w => WrapValue.Unassigned (some w)) ctx =
              writeStateSeq cs (vs.map fun w => WrapValue.Unassigned (some w))
                (ctx.assign_advice c (some v)).1 := rfl
          rw [hstep, ih]
          simp [RegionCtx.assign_advice, revZipA, Nat.succ_le_succ_iff]

theorem constrain_equal_ok_eq {F : Type} {ctx ctx' : RegionCtx F} {a b : CellRef}
    (h : ctx.constrain_equal a b = .ok ctx') :
    ctx' = { ctx with backend := { ctx.backend with
      eqConstraints := (a, b) :: ctx.backend.eqConstraints } } := by
  unfold RegionCtx.constrain_equal at h
  split at h
  · exact (Except.ok.injEq _ _ ▸ h).symm
  · simp at h

theorem constrain_equal_ok_of_mem {F : Type} (ctx : RegionCtx F) (a b : CellRef)
    (ha : a.col ∈ ctx.backend.eqEnabled) (hb : b.col ∈ ctx.backend.eqEnabled) :
    ctx.constrain_equal a b = .ok { ctx with backend := { ctx.backend with
      eqConstraints := (a, b) :: ctx.backend.eqConstraints } } := by
  unfold RegionCtx.constrain_equal
  rw [if_pos ⟨ha, hb⟩]

theorem writeQ1_preserves {F : Type} (cfg : MainGateConfig) (q1 : Option (List F))
    (ctx : RegionCtx F) :
    (writeQ1 cfg q1 ctx).1.offset = ctx.offset ∧
    (writeQ1 cfg q1 ctx).1.backend.adviceCells = ctx.backend.adviceCells ∧
    (writeQ1 cfg q1 ctx).1.backend.eqConstraints = ctx.backend.eqConstraints ∧
    (writeQ1 cfg q1 ctx).1.backend.eqEnabled = ctx.backend.eqEnabled := by
  cases q1 with
  | none => exact ⟨rfl, rfl, rfl, rfl⟩
  | some l =>
      rw [show writeQ1 cfg (some l) ctx = writeFixedSeq cfg.q_1 l ctx from rfl,
        writeFixedSeq_eq]
      exact ⟨rfl, rfl, rfl, rfl⟩

theorem writeOptFixed_preserves {F : Type} (column : Nat) (v : Option F)
    (ctx : RegionCtx F) :
    (writeOptFixed column v ctx).offset = ctx.offset ∧
    (writeOptFixed column v ctx).backend.adviceCells = ctx.backend.adviceCells ∧
    (writeOptFixed column v ctx).backend.eqConstraints = ctx.backend.eqConstraints ∧
    (writeOptFixed column v ctx).backend.eqEnabled = ctx.backend.eqEnabled := by
  cases v with
  | none => exact ⟨rfl, rfl, rfl, rfl⟩
  | some x => exact ⟨rfl, rfl, rfl, rfl⟩

theorem writeStateSeq_preserves {F : Type} (vals : List (WrapValue F)) :
    ∀ (cols : List Nat) (ctx : RegionCtx F),
    (writeStateSeq cols vals ctx).1.offset = ctx.offset ∧
    (writeStateSeq cols vals ctx).1.backend.fixedCells = ctx.backend.fixedCells ∧
    (writeStateSeq cols vals ctx).1.backend.eqEnabled = ctx.backend.eqEnabled := by
  induction vals with
  | nil =>
      intro cols ctx
      cases cols <;> exact ⟨rfl, rfl, rfl⟩
  | cons w ws ih =>
      intro cols ctx
      cases cols with
      | nil => cases w <;> exact ⟨rfl, rfl, rfl⟩
      | cons c cs =>
          cases w with
          | Unassigned vv => exact ih cs _
          | Zero => exact ih cs ctx
          | Assigned avv =>
              have hstep : writeStateSeq (c :: cs) (.Assigned avv :: ws) ctx =
                  match (ctx.assign_advice c avv.value).1.constrain_equal
                      (ctx.assign_advice c avv.value).2.cell avv.cell with
                  | .ok ctx2 => writeStateSeq cs ws ctx2
                  | .error e => ((ctx.assign_advice c avv.value).1, .error e) := rfl
              rw [hstep]
              split
              next ctx2 heq =>
                rw [constrain_equal_ok_eq heq]
                exact ih cs _
              next e heq => exact ⟨rfl, rfl, rfl⟩

theorem writeState_preserves {F : Type} (cfg : MainGateConfig)
    (st : Option (List (WrapValue F))) (ctx : RegionCtx F) :
    (writeState cfg st ctx).1.offset = ctx.offset ∧
    (writeState cfg st ctx).1.backend.fixedCells = ctx.backend.fixedCells ∧
    (writeState cfg st ctx).1.backend.eqEnabled = ctx.backend.eqEnabled := by
  cases st with
  | none => exact ⟨rfl, rfl, rfl⟩
  | some vs => exact writeStateSeq_preserves vs cfg.state ctx

theorem writeOut_preserves {F : Type} (cfg : MainGateConfig) (w : WrapValue F)
    (ctx : RegionCtx F) :
    (writeOut cfg w ctx).1.offset = ctx.offset ∧
    (writeOut cfg w ctx).1.backend.fixedCells = ctx.backend.fixedCells ∧
    (writeOut cfg w ctx).1.backend.eqEnabled = ctx.backend.eqEnabled := by
  cases w with
  | Unassigned vv => exact ⟨rfl, rfl, rfl⟩
  | Zero => exact ⟨rfl, rfl, rfl⟩
  | Assigned avv =>
      have hstep : writeOut cfg (.Assigned avv) ctx =
          match (ctx.assign_advice cfg.out avv.value).1.constrain_equal
              (ctx.assign_advice cfg.out avv.value).2.cell avv.cell with
          | .ok ctx2 => (ctx2, .ok (ctx.assign_advice cfg.out avv.value).2)
          | .error e => ((ctx.assign_advice cfg.out avv.value).1, .error e) := rfl
      rw [hstep]
      split
      next ctx2 heq =>
        rw [constrain_equal_ok_eq heq]
        exact ⟨rfl, rfl, rfl⟩
      next e heq => exact ⟨rfl, rfl, rfl⟩

/-- `apply` unfolded into its sequential phases. -/
theorem apply_decomp {F : Type} (cfg : MainGateConfig) (ctx : RegionCtx F)
    (q1 : Option (List F)) (qm : Option F) (st : Option (List (WrapValue F)))
    (rcv : Option F) (qo : F) (outw : WrapValue F) :
    MainGate.apply cfg ctx (q1, qm, st) rcv (qo, outw) =
      (match writeQ1 cfg q1 ctx with
       | (c1, .ok _) =>
         match writeState cfg st (writeOptFixed cfg.q_m qm c1) with
         | (c3, .ok _) =>
           match writeOut cfg outw
               (((writeOptFixed cfg.rc rcv c3).assign_fixed cfg.q_o qo).1) with
           | (c6, .ok res) => (c6.next, .ok res)
           | (c6, .error e) => (c6, .error e)
         | (c3, .error e) => (c3, .error e)
       | (c1, .error e) => (c1, .error e)) := by
  unfold MainGate.apply
  dsimp only
  rcases hw1 : writeQ1 cfg q1 ctx with ⟨c1, u1⟩
  cases u1 with
  | error e => rfl
  | ok u => dsimp only [pseq]

theorem writeStateSeq_advice_mono {F : Type} (vals : List (WrapValue F)) :
    ∀ (cols : List Nat) (ctx : RegionCtx F) (e : CellRef × Option F),
    e ∈ ctx.backend.adviceCells →
    e ∈ (writeStateSeq cols vals ctx).1.backend.adviceCells := by
  induction vals with
  | nil =>
      intro cols ctx e he
      cases cols <;> exact he
  | cons w ws ih =>
      intro cols ctx e he
      cases cols with
      | nil => cases w <;> exact he
      | cons c cs =>
          cases w with
          | Unassigned vv => exact ih cs _ e (List.mem_cons_of_mem _ he)
          | Zero => exact ih cs ctx e he
          | Assigned avv =>
              have hstep : writeStateSeq (c :: cs) (.Assigned avv :: ws) ctx =
                  match (ctx.assign_advice c avv.value).1.constrain_equal
                      (ctx.assign_advice c avv.value).2.cell avv.cell with
                  | .ok ctx2 => writeStateSeq cs ws ctx2
                  | .error er => ((ctx.assign_advice c avv.value).1, .error er) := rfl
              rw [hstep]
              split
              next ctx2 heq =>
                rw [constrain_equal_ok_eq heq]
                exact ih cs _ e (List.mem_cons_of_mem _ he)
              next er heq => exact List.mem_cons_of_mem _ he

theorem writeStateSeq_constraints_mono {F : Type} (vals : List (WrapValue F)) :
    ∀ (cols : List Nat) (ctx : RegionCtx F) (p : CellRef × CellRef),
    p ∈ ctx.backend.eqConstraints →
    p ∈ (writeStateSeq cols vals ctx).1.backend.eqConstraints := by
  induction vals with
  | nil =>
      intro cols ctx p hp
      cases cols <;> exact hp
  | cons w ws ih =>
      intro cols ctx p hp
      cases cols with
      | nil => cases w <;> exact hp
      | cons c cs =>
          cases w with
          | Unassigned vv => exact ih cs _ p hp
          | Zero => exact ih cs ctx p hp
          | Assigned avv =>
              have hstep : writeStateSeq (c :: cs) (.Assigned avv :: ws) ctx =
                  match (ctx.assign_advice c avv.value).1.constrain_equal
                      (ctx.assign_advice c avv.value).2.cell avv.cell with
                  | .ok ctx2 => writeStateSeq cs ws ctx2
                  | .error er => ((ctx.assign_advice c avv.value).1, .error er) := rfl
              rw [hstep]
              split
              next ctx2 heq =>
                rw [constrain_equal_ok_eq heq]
                exact ih cs _ p (List.mem_cons_of_mem _ hp)
              next er heq => exact hp

theorem writeOut_advice_mono {F : Type} (cfg : MainGateConfig) (w : WrapValue F)
    (ctx : RegionCtx F) (e : CellRef × Option F)
    (he : e ∈ ctx.backend.adviceCells) :
    e ∈ (writeOut cfg w ctx).1.backend.adviceCells := by
  cases w with
  | Unassigned vv => exact List.mem_cons_of_mem _ he
  | Zero => exact he
  | Assigned avv =>
      have hstep : writeOut cfg (.Assigned avv) ctx =
          match (ctx.assign_advice cfg.out avv.value).1.constrain_equal
              (ctx.assign_advice cfg.out avv.value).2.cell avv.cell with
          | .ok ctx2 => (ctx2, .ok (ctx.assign_advice cfg.out avv.value).2)
          | .error er => ((ctx.assign_advice cfg.out avv.value).1, .error er) := rfl
      rw [hstep]
      split
      next ctx2 heq =>
        rw [constrain_equal_ok_eq heq]
        exact List.mem_cons_of_mem _ he
      next er heq => exact List.mem_cons_of_mem _ he

theorem writeOut_constraints_mono {F : Type} (cfg : MainGateConfig)
    (w : WrapValue F) (ctx : RegionCtx F) (p : CellRef × CellRef)
    (hp : p ∈ ctx.backend.eqConstraints) :
    p ∈ (writeOut cfg w ctx).1.backend.eqConstraints := by
  cases w with
  | Unassigned vv => exact hp
  | Zero => exact hp
  | Assigned avv =>
      have hstep : writeOut cfg (.Assigned avv) ctx =
          match (ctx.assign_advice cfg.out avv.value).1.constrain_equal
              (ctx.assign_advice cfg.out avv.value).2.cell avv.cell with
          | .ok ctx2 => (ctx2, .ok (ctx.assign_advice cfg.out avv.value).2)
          | .error er => ((ctx.assign_advice cfg.out avv.value).1, .error er) := rfl
      rw [hstep]
      split
      next ctx2 heq =>
        rw [constrain_equal_ok_eq heq]
        exact List.mem_cons_of_mem _ hp
      next er heq => exact hp

/-- On success, every non-`Zero` state entry was written into its column
at the current row, and every `Assigned` entry additionally recorded its
copy constraint. -/
theorem writeStateSeq_mem {F : Type} (vals : List (WrapValue F)) :
    ∀ (cols : List Nat) (ctx : RegionCtx F),
    (writeStateSeq cols vals ctx).2 = .ok () → ∀ i, i < vals.length →
    (∀ vv, vals.getD i .Zero = .Unassigned vv →
      ((⟨cols.getD i 0, ctx.offset⟩, vv) : CellRef × Option F) ∈
        (writeStateSeq cols vals ctx).1.backend.adviceCells) ∧
    (∀ avv, vals.getD i .Zero = .Assigned avv →
      ((⟨cols.getD i 0, ctx.offset⟩, avv.value) : CellRef × Option F) ∈
        (writeStateSeq cols vals ctx).1.backend.adviceCells ∧
      ((⟨cols.getD i 0, ctx.offset⟩, avv.cell) : CellRef × CellRef) ∈
        (writeStateSeq cols vals ctx).1.backend.eqConstraints) := by
  induction vals with
  | nil =>
      intro cols ctx _ i hi
      simp at hi
  | cons w ws ih =>
      intro cols ctx hok i hi
      cases cols with
      | nil => cases w <;> simp [writeStateSeq] at hok
      | cons c cs =>
          cases w with
          | Unassigned vv =>
              cases i with
              | zero =>
                  refine ⟨?_, ?_⟩
                  · intro vv' hvv'
                    rw [List.getD_cons_zero] at hvv'
                    injection hvv' with hv
                    subst hv
                    exact writeStateSeq_advice_mono ws cs _ _
                      (List.mem_cons_self _ _)
                  · intro avv h0
                    rw [List.getD_cons_zero] at h0
                    simp at h0
              | succ j =>
                  have hok' : (writeStateSeq cs ws
                      (ctx.assign_advice c vv).1).2 = .ok () := hok
                  have hrec := ih cs (ctx.assign_advice c vv).1 hok' j
                    (by simpa using hi)
                  simp only [List.getD_cons_succ]
                  exact hrec
          | Zero =>
              cases i with
              | zero =>
                  refine ⟨?_, ?_⟩
                  · intro vv' hvv'
                    rw [List.getD_cons_zero] at hvv'
                    simp at hvv'
                  · intro avv h0
                    rw [List.getD_cons_zero] at h0
                    simp at h0
              | succ j =>
                  have hok' : (writeStateSeq cs ws ctx).2 = .ok () := hok
                  have hrec := ih cs ctx hok' j (by simpa using hi)
                  simp only [List.getD_cons_succ]
                  exact hrec
          | Assigned avv =>
              have hstep : writeStateSeq (c :: cs) (.Assigned avv :: ws) ctx =
                  match (ctx.assign_advice c avv.value).1.constrain_equal
                      (ctx.assign_advice c avv.value).2.cell avv.cell with
                  | .ok ctx2 => writeStateSeq cs ws ctx2
                  | .error er => ((ctx.assign_advice c avv.value).1, .error er) := rfl
              rw [hstep] at hok ⊢
              split at hok
              next ctx2 heq =>
                have hctx2 := constrain_equal_ok_eq heq
                subst hctx2
                cases i with
                | zero =>
                    refine ⟨?_, ?_⟩
                    · intro vv' hvv'
                      rw [List.getD_cons_zero] at hvv'
                      simp at hvv'
                    · intro avv' h0
                      rw [List.getD_cons_zero] at h0
                      injection h0 with hv
                      subst hv
                      constructor
                      · exact writeStateSeq_advice_mono ws cs _ _
                          (List.mem_cons_self _ _)
                      · exact writeStateSeq_constraints_mono ws cs _ _
                          (List.mem_cons_self _ _)
                | succ j =>
                    have hrec := ih cs _ hok j (by simpa using hi)
                    simp only [List.getD_cons_succ]
                    exact hrec
              next er heq => simp at hok

/-- `apply` advances the cursor by exactly one on success and leaves it
unchanged on failure. -/
theorem apply_offset {F : Type} (cfg : MainGateConfig) (ctx : RegionCtx F)
    (q1 : Option (List F)) (qm : Option F) (st : Option (List (WrapValue F)))
    (rcv : Option F) (qo : F) (outw : WrapValue F) :
    (MainGate.apply cfg ctx (q1, qm, st) rcv (qo, outw)).1.offset =
      (if exceptOk (MainGate.apply cfg ctx (q1, qm, st) rcv (qo, outw)).2
       then ctx.offset + 1 else ctx.offset) := by
  have happ := apply_decomp cfg ctx q1 qm st rcv qo outw
  rcases hw1 : writeQ1 cfg q1 ctx with ⟨c1, u1⟩
  rw [hw1] at happ
  have hc1 : c1.offset = ctx.offset := by
    have h := (writeQ1_preserves cfg q1 ctx).1
    rw [hw1] at h
    exact h
  cases u1 with
  | error e =>
      dsimp only at happ
      rw [happ]
      simp [exceptOk, hc1]
  | ok u =>
      dsimp only at happ
      rcases hw3 : writeState cfg st (writeOptFixed cfg.q_m qm c1) with ⟨c3, u3⟩
      rw [hw3] at happ
      have hc3 : c3.offset = ctx.offset := by
        have h := (writeState_preserves cfg st (writeOptFixed cfg.q_m qm c1)).1
        rw [hw3] at h
        rw [h, (writeOptFixed_preserves cfg.q_m qm c1).1, hc1]
      cases u3 with
      | error e =>
          dsimp only at happ
          rw [happ]
          simp [exceptOk, hc3]
      | ok u3v =>
          dsimp only at happ
          rcases hw6 : writeOut cfg outw
              (((writeOptFixed cfg.rc rcv c3).assign_fixed cfg.q_o qo).1) with ⟨c6, u6⟩
          rw [hw6] at happ
          have hc6 : c6.offset = ctx.offset := by
            have h := (writeOut_preserves cfg outw
              (((writeOptFixed cfg.rc rcv c3).assign_fixed cfg.q_o qo).1)).1
            rw [hw6] at h
            rw [h]
            show (writeOptFixed cfg.rc rcv c3).offset = ctx.offset
            rw [(writeOptFixed_preserves cfg.rc rcv c3).1, hc3]
          cases u6 with
          | ok res =>
              dsimp only at happ
              rw [happ]
              simp [exceptOk, RegionCtx.next, hc6]
          | error e =>
              dsimp only at happ
              rw [happ]
              simp [exceptOk, hc6]

/-- One call moves the offset by one exactly when it advances. -/
theorem stepOp_offset {F : Type} (cfg : MainGateConfig) (ctx : RegionCtx F)
    (op : GateOp F) :
    (stepOp cfg ctx op).offset =
      (if opAdvances cfg ctx op then ctx.offset + 1 else ctx.offset) := by
  cases op with
  | next => simp [stepOp, opAdvances, RegionCtx.next]
  | app a => exact apply_offset cfg ctx a.q1 a.qm a.st a.rcv a.qo a.outw

/-- Unconditional offset accounting for a call sequence. -/
theorem runOps_offset {F : Type} (cfg : MainGateConfig) (ops : List (GateOp F)) :
    ∀ ctx : RegionCtx F,
    (runOps cfg ops ctx).offset = ctx.offset + advancesCount cfg ops ctx := by
  induction ops with
  | nil => intro ctx; simp [runOps, advancesCount]
  | cons op ops ih =>
      intro ctx
      show (runOps cfg ops (stepOp cfg ctx op)).offset = _
      rw [ih (stepOp cfg ctx op), stepOp_offset]
      show _ = ctx.offset +
        ((if opAdvances cfg ctx op then 1 else 0) + advancesCount cfg ops (stepOp cfg ctx op))
      by_cases h : opAdvances cfg ctx op = true
      · simp [h]
        omega
      · simp [h]

/-- Every row targeted by an `apply` in the sequence lies at or beyond the
starting offset. -/
theorem applyTargets_lower {F : Type} (cfg : MainGateConfig)
    (ops : List (GateOp F)) : ∀ (ctx : RegionCtx F) (t : Nat),
    t ∈ applyTargets cfg ops ctx → ctx.offset ≤ t := by
  induction ops with
  | nil => intro ctx t ht; simp [applyTargets] at ht
  | cons op ops ih =>
      intro ctx t ht
      cases op with
      | next =>
          have h := ih ctx.next t ht
          exact le_trans (Nat.le_succ _) h
      | app a =>
          rcases List.mem_cons.mp ht with h | h
          · omega
          · have h2 := ih (stepOp cfg ctx (.app a)) t h
            have h3 := stepOp_offset cfg ctx (.app a)
            by_cases hadv : opAdvances cfg ctx (.app a) = true
            · rw [hadv, if_pos rfl] at h3
              omega
            · rw [if_neg hadv] at h3
              omega

/-- Under all-successful `apply` calls, the targeted rows are pairwise
distinct. -/
theorem applyTargets_nodup {F : Type} (cfg : MainGateConfig)
    (ops : List (GateOp F)) : ∀ ctx : RegionCtx F,
    allOk cfg ops ctx = true → (applyTargets cfg ops ctx).Nodup := by
  induction ops with
  | nil =>
      intro ctx _
      simp [applyTargets]
  | cons op ops ih =>
      intro ctx h
      cases op with
      | next =>
          have h' : allOk cfg ops ctx.next = true := h
          exact ih ctx.next h'
      | app a =>
          have h' : (exceptOk (MainGate.apply cfg ctx (a.q1, a.qm, a.st)
              a.rcv (a.qo, a.outw)).2 &&
              allOk cfg ops (stepOp cfg ctx (.app a))) = true := h
          rw [Bool.and_eq_true] at h'
          obtain ⟨hsucc, hrest⟩ := h'
          show (ctx.offset :: applyTargets cfg ops (stepOp cfg ctx (.app a))).Nodup
          rw [List.nodup_cons]
          constructor
          · intro hmem
            have hlow := applyTargets_lower cfg ops (stepOp cfg ctx (.app a))
              ctx.offset hmem
            have hoff := stepOp_offset cfg ctx (.app a)
            have hadv : opAdvances cfg ctx (.app a) = true := hsucc
            rw [hadv, if_pos rfl] at hoff
            omega
          · exact ih _ hrest

/-- C6: for any sequence of `apply` / `next` calls on a cursor in which
every `apply` succeeds, the final offset equals the starting offset plus
the number of advancing calls (each `next` and each successful `apply`
advances by one), the offset never decreases, and no two `apply` calls of
the sequence target the same row twice. -/
theorem offset_monotone_accounting {F : Type} (cfg : MainGateConfig)
    (ops : List (GateOp F)) (ctx : RegionCtx F)
    (h : allOk cfg ops ctx = true) :
    (runOps cfg ops ctx).offset = ctx.offset + advancesCount cfg ops ctx ∧
    ctx.offset ≤ (runOps cfg ops ctx).offset ∧
    (applyTargets cfg ops ctx).Nodup := by
  refine ⟨runOps_offset cfg ops ctx, ?_, applyTargets_nodup cfg ops ctx h⟩
  rw [runOps_offset cfg ops ctx]
  exact Nat.le_add_right _ _

/-- C6 witness: a `next` followed by two successful `apply` calls. -/
theorem offset_monotone_accounting_witness :
    (runOps exCfg [GateOp.next,
      GateOp.app ⟨none, none, none, none, 1, .Unassigned (some 1)⟩,
      GateOp.app ⟨none, none, none, none, 1, .Unassigned (some 1)⟩] exCtx).offset =
      exCtx.offset + advancesCount exCfg [GateOp.next,
        GateOp.app ⟨none, none, none, none, 1, .Unassigned (some 1)⟩,
        GateOp.app ⟨none, none, none, none, 1, .Unassigned (some 1)⟩] exCtx ∧
    exCtx.offset ≤ (runOps exCfg [GateOp.next,
      GateOp.app ⟨none, none, none, none, 1, .Unassigned (some 1)⟩,
      GateOp.app ⟨none, none, none, none, 1, .Unassigned (some 1)⟩] exCtx).offset ∧
    (applyTargets exCfg [GateOp.next,
      GateOp.app ⟨none, none, none, none, 1, .Unassigned (some 1)⟩,
      GateOp.app ⟨none, none, none, none, 1, .Unassigned (some 1)⟩] exCtx).Nodup :=
  offset_monotone_accounting exCfg [GateOp.next,
    GateOp.app ⟨none, none, none, none, 1, .Unassigned (some 1)⟩,
    GateOp.app ⟨none, none, none, none, 1, .Unassigned (some 1)⟩] exCtx (by decide)

theorem writeStateSeq_advice_lookup_other {F : Type} (vals : List (WrapValue F)) :
    ∀ (cols : List Nat) (ctx : RegionCtx F) (c : CellRef), c.col ∉ cols →
    lookupCell (writeStateSeq cols vals ctx).1.backend.adviceCells c =
      lookupCell ctx.backend.adviceCells c := by
  induction vals with
  | nil =>
      intro cols ctx c _
      cases cols <;> rfl
  | cons w ws ih =>
      intro cols ctx c hc
      cases cols with
      | nil => cases w <;> rfl
      | cons c0 cs =>
          have hc0 : c.col ≠ c0 := fun h => hc (h ▸ List.mem_cons_self _ _)
          have hcs : c.col ∉ cs := fun h => hc (List.mem_cons_of_mem _ h)
          have hne : (⟨c0, ctx.offset⟩ : CellRef) ≠ c := by
            intro h
            exact hc0 (by rw [← h])
          cases w with
          | Unassigned vv =>
              rw [show writeStateSeq (c0 :: cs) (.Unassigned vv :: ws) ctx =
                writeStateSeq cs ws (ctx.assign_advice c0 vv).1 from rfl]
              rw [ih cs _ c hcs]
              exact lookupCell_cons_ne _ _ _ _ hne
          | Zero =>
              rw [show writeStateSeq (c0 :: cs) (.Zero :: ws) ctx =
                writeStateSeq cs ws ctx from rfl]
              exact ih cs ctx c hcs
          | Assigned avv =>
              have hstep : writeStateSeq (c0 :: cs) (.Assigned avv :: ws) ctx =
                  match (ctx.assign_advice c0 avv.value).1.constrain_equal
                      (ctx.assign_advice c0 avv.value).2.cell avv.cell with
                  | .ok ctx2 => writeStateSeq cs ws ctx2
                  | .error er => ((ctx.assign_advice c0 avv.value).1, .error er) := rfl
              rw [hstep]
              split
              next ctx2 heq =>
                rw [constrain_equal_ok_eq heq]
                rw [ih cs _ c hcs]
                exact lookupCell_cons_ne _ _ _ _ hne
              next er heq => exact lookupCell_cons_ne _ _ _ _ hne

theorem writeState_advice_lookup_other {F : Type} (cfg : MainGateConfig)
    (st : Option (List (WrapValue F))) (ctx : RegionCtx F) (c : CellRef)
    (h : c.col ∉ cfg.state) :
    lookupCell (writeState cfg st ctx).1.backend.adviceCells c =
      lookupCell ctx.backend.adviceCells c := by
  cases st with
  | none => rfl
  | some vs => exact writeStateSeq_advice_lookup_other vs cfg.state ctx c h

/-- C4: calling `apply` with `WrapValue::Zero` as the output fails for
every choice of the other arguments (the `Zero` output branch is the
`unimplemented!` panic; an earlier backend rejection also fails the call),
and the call never writes the output advice cell of the current row — in
particular it never coerces the output to the field value 0. -/
theorem apply_zero_output_fails {F : Type} (cfg : MainGateConfig)
    (ctx : RegionCtx F) (q1 : Option (List F)) (qm : Option F)
    (st : Option (List (WrapValue F))) (rcv : Option F) (qo : F)
    (hout : cfg.out ∉ cfg.state) :
    exceptOk (MainGate.apply cfg ctx (q1, qm, st) rcv (qo, WrapValue.Zero)).2
      = false ∧
    lookupCell (MainGate.apply cfg ctx (q1, qm, st) rcv
        (qo, WrapValue.Zero)).1.backend.adviceCells ⟨cfg.out, ctx.offset⟩ =
      lookupCell ctx.backend.adviceCells ⟨cfg.out, ctx.offset⟩ := by
  have happ := apply_decomp cfg ctx q1 qm st rcv qo .Zero
  rcases hw1 : writeQ1 cfg q1 ctx with ⟨c1, u1⟩
  rw [hw1] at happ
  have hadv1 : c1.backend.adviceCells = ctx.backend.adviceCells := by
    have h := (writeQ1_preserves cfg q1 ctx).2.1
    rw [hw1] at h
    exact h
  cases u1 with
  | error e =>
      dsimp only at happ
      rw [happ]
      exact ⟨rfl, by rw [hadv1]⟩
  | ok u =>
      dsimp only at happ
      rcases hw3 : writeState cfg st (writeOptFixed cfg.q_m qm c1) with ⟨c3, u3⟩
      rw [hw3] at happ
      have hlook3 : lookupCell c3.backend.adviceCells ⟨cfg.out, ctx.offset⟩ =
          lookupCell ctx.backend.adviceCells ⟨cfg.out, ctx.offset⟩ := by
        have h := writeState_advice_lookup_other cfg st
          (writeOptFixed cfg.q_m qm c1) ⟨cfg.out, ctx.offset⟩ hout
        rw [hw3] at h
        rw [h, (writeOptFixed_preserves cfg.q_m qm c1).2.1, hadv1]
      cases u3 with
      | error e =>
          dsimp only at happ
          rw [happ]
          exact ⟨rfl, hlook3⟩
      | ok u3 =>
          dsimp only at happ
          rw [show writeOut cfg WrapValue.Zero
              (((writeOptFixed cfg.rc rcv c3).assign_fixed cfg.q_o qo).1) =
              ((((writeOptFixed cfg.rc rcv c3).assign_fixed cfg.q_o qo).1),
                .error .zeroOutputUnimplemented) from rfl] at happ
          dsimp only at happ
          rw [happ]
          refine ⟨rfl, ?_⟩
          show lookupCell (writeOptFixed cfg.rc rcv c3).backend.adviceCells
            ⟨cfg.out, ctx.offset⟩ = _
          rw [(writeOptFixed_preserves cfg.rc rcv c3).2.1]
          exact hlook3

/-- C4 witness: a concrete call with `Zero` output against the width-2
layout. -/
theorem apply_zero_output_fails_witness :
    exceptOk (MainGate.apply exCfg exCtx (none, none, none) none
      ((1 : F5), WrapValue.Zero)).2 = false ∧
    lookupCell (MainGate.apply exCfg exCtx (none, none, none) none
        ((1 : F5), WrapValue.Zero)).1.backend.adviceCells
        ⟨exCfg.out, exCtx.offset⟩ =
      lookupCell exCtx.backend.adviceCells ⟨exCfg.out, exCtx.offset⟩ :=
  apply_zero_output_fails exCfg exCtx none none none none 1 (by decide)

/-- A successful `apply` call decomposes into successful phases followed
by the cursor advance. -/
theorem apply_ok_parts {F : Type} (cfg : MainGateConfig) (ctx : RegionCtx F)
    (q1 : Option (List F)) (qm : Option F) (st : Option (List (WrapValue F)))
    (rcv : Option F) (qo : F) (outw : WrapValue F) (ctx' : RegionCtx F)
    (res : AssignedValue F)
    (happ : MainGate.apply cfg ctx (q1, qm, st) rcv (qo, outw) = (ctx', .ok res)) :
    ∃ (c1 : RegionCtx F) (u1 : Unit) (c3 : RegionCtx F) (u3 : Unit)
      (c6 : RegionCtx F),
      writeQ1 cfg q1 ctx = (c1, .ok u1) ∧
      writeState cfg st (writeOptFixed cfg.q_m qm c1) = (c3, .ok u3) ∧
      writeOut cfg outw
        (((writeOptFixed cfg.rc rcv c3).assign_fixed cfg.q_o qo).1) =
        (c6, .ok res) ∧
      ctx' = c6.next := by
  have hd := apply_decomp cfg ctx q1 qm st rcv qo outw
  rw [happ] at hd
  rcases hw1 : writeQ1 cfg q1 ctx with ⟨c1, u1⟩
  rw [hw1] at hd
  cases u1 with
  | error e => simp at hd
  | ok u =>
      dsimp only at hd
      rcases hw3 : writeState cfg st (writeOptFixed cfg.q_m qm c1) with ⟨c3, u3⟩
      rw [hw3] at hd
      cases u3 with
      | error e => simp at hd
      | ok u3 =>
          dsimp only at hd
          rcases hw6 : writeOut cfg outw
              (((writeOptFixed cfg.rc rcv c3).assign_fixed cfg.q_o qo).1)
            with ⟨c6, u6⟩
          rw [hw6] at hd
          cases u6 with
          | error e => simp at hd
          | ok res6 =>
              dsimp only at hd
              simp only [Prod.mk.injEq, Except.ok.injEq] at hd
              obtain ⟨hctx', hres⟩ := hd
              subst hres
              exact ⟨c1, u, c3, u3, c6, rfl, hw3, hw6, hctx'⟩

/-- The offset of each intermediate cursor of a successful `apply` equals
the starting offset. -/
theorem apply_parts_offsets {F : Type} {cfg : MainGateConfig}
    {ctx c1 c3 : RegionCtx F} {q1 : Option (List F)} {qm : Option F}
    {st : Option (List (WrapValue F))} {u1 u3 : Unit}
    (hw1 : writeQ1 cfg q1 ctx = (c1, .ok u1))
    (hw3 : writeState cfg st (writeOptFixed cfg.q_m qm c1) = (c3, .ok u3)) :
    c1.offset = ctx.offset ∧ c3.offset = ctx.offset := by
  have h1 := (writeQ1_preserves cfg q1 ctx).1
  rw [hw1] at h1
  have h3 := (writeState_preserves cfg st (writeOptFixed cfg.q_m qm c1)).1
  rw [hw3] at h3
  rw [(writeOptFixed_preserves cfg.q_m qm c1).1] at h3
  exact ⟨h1, h3.trans h1⟩

/-- C3: in a successful `apply` call, every `WrapValue::Assigned(c)` —
whether a state entry or the output — had `c`'s value re-assigned into the
corresponding advice cell of the current row and an equality constraint
recorded between that new cell and `c`'s cell, so the two cells hold equal
values under every assignment satisfying the recorded constraints. -/
theorem apply_assigned_copy_constraint {F : Type} (cfg : MainGateConfig)
    (ctx ctx' : RegionCtx F) (q1 : Option (List F)) (qm : Option F)
    (vs : List (WrapValue F)) (rcv : Option F) (qo : F) (outw : WrapValue F)
    (res : AssignedValue F)
    (happ : MainGate.apply cfg ctx (q1, qm, some vs) rcv (qo, outw) =
      (ctx', .ok res)) :
    (∀ i, i < vs.length → ∀ avv, vs.getD i .Zero = .Assigned avv →
      ((⟨cfg.state.getD i 0, ctx.offset⟩, avv.value) : CellRef × Option F) ∈
        ctx'.backend.adviceCells ∧
      ((⟨cfg.state.getD i 0, ctx.offset⟩, avv.cell) : CellRef × CellRef) ∈
        ctx'.backend.eqConstraints ∧
      ∀ asg : CellRef → F,
        (∀ p ∈ ctx'.backend.eqConstraints, asg p.1 = asg p.2) →
        asg ⟨cfg.state.getD i 0, ctx.offset⟩ = asg avv.cell) ∧
    (∀ avv, outw = .Assigned avv →
      ((⟨cfg.out, ctx.offset⟩, avv.value) : CellRef × Option F) ∈
        ctx'.backend.adviceCells ∧
      ((⟨cfg.out, ctx.offset⟩, avv.cell) : CellRef × CellRef) ∈
        ctx'.backend.eqConstraints ∧
      ∀ asg : CellRef → F,
        (∀ p ∈ ctx'.backend.eqConstraints, asg p.1 = asg p.2) →
        asg ⟨cfg.out, ctx.offset⟩ = asg avv.cell) := by
  obtain ⟨c1, u1, c3, u3, c6, hw1, hw3, hw6, hctx'⟩ :=
    apply_ok_parts cfg ctx q1 qm (some vs) rcv qo outw ctx' res happ
  obtain ⟨hc1off, hc3off⟩ := apply_parts_offsets hw1 hw3
  subst hctx'
  have hadvT : ∀ e : CellRef × Option F, e ∈ c3.backend.adviceCells →
      e ∈ c6.next.backend.adviceCells := by
    intro e he
    have he5 : e ∈ (((writeOptFixed cfg.rc rcv c3).assign_fixed
        cfg.q_o qo).1).backend.adviceCells := by
      show e ∈ (writeOptFixed cfg.rc rcv c3).backend.adviceCells
      rw [(writeOptFixed_preserves cfg.rc rcv c3).2.1]
      exact he
    have h6 := writeOut_advice_mono cfg outw _ e he5
    rw [hw6] at h6
    exact h6
  have hconT : ∀ p : CellRef × CellRef, p ∈ c3.backend.eqConstraints →
      p ∈ c6.next.backend.eqConstraints := by
    intro p hp
    have hp5 : p ∈ (((writeOptFixed cfg.rc rcv c3).assign_fixed
        cfg.q_o qo).1).backend.eqConstraints := by
      show p ∈ (writeOptFixed cfg.rc rcv c3).backend.eqConstraints
      rw [(writeOptFixed_preserves cfg.rc rcv c3).2.2.1]
      exact hp
    have h6 := writeOut_constraints_mono cfg outw _ p hp5
    rw [hw6] at h6
    exact h6
  have hw3' : writeStateSeq cfg.state vs (writeOptFixed cfg.q_m qm c1) =
      (c3, .ok u3) := hw3
  have hseq : (writeStateSeq cfg.state vs
      (writeOptFixed cfg.q_m qm c1)).2 = .ok () := by
    rw [hw3']
  have hoffeq : (writeOptFixed cfg.q_m qm c1).offset = ctx.offset := by
    rw [(writeOptFixed_preserves cfg.q_m qm c1).1, hc1off]
  have hmem := writeStateSeq_mem vs cfg.state (writeOptFixed cfg.q_m qm c1) hseq
  constructor
  · intro i hi avv hAss
    obtain ⟨hmAdv, hmCon⟩ := (hmem i hi).2 avv hAss
    rw [hw3', hoffeq] at hmAdv
    rw [hw3', hoffeq] at hmCon
    refine ⟨hadvT _ hmAdv, hconT _ hmCon, ?_⟩
    intro asg hs
    exact hs _ (hconT _ hmCon)
  · intro avv hAss
    subst hAss
    have hoff5 : (((writeOptFixed cfg.rc rcv c3).assign_fixed
        cfg.q_o qo).1).offset = ctx.offset := by
      show (writeOptFixed cfg.rc rcv c3).offset = ctx.offset
      rw [(writeOptFixed_preserves cfg.rc rcv c3).1, hc3off]
    have hstep : writeOut cfg (.Assigned avv)
        (((writeOptFixed cfg.rc rcv c3).assign_fixed cfg.q_o qo).1) =
        match ((((writeOptFixed cfg.rc rcv c3).assign_fixed
              cfg.q_o qo).1).assign_advice cfg.out avv.value).1.constrain_equal
            ((((writeOptFixed cfg.rc rcv c3).assign_fixed
              cfg.q_o qo).1).assign_advice cfg.out avv.value).2.cell avv.cell with
        | .ok ctx2 => (ctx2, .ok ((((writeOptFixed cfg.rc rcv c3).assign_fixed
            cfg.q_o qo).1).assign_advice cfg.out avv.value).2)
        | .error er => (((((writeOptFixed cfg.rc rcv c3).assign_fixed
            cfg.q_o qo).1).assign_advice cfg.out avv.value).1, .error er) := rfl
    rw [hstep] at hw6
    split at hw6
    next ctx2 heq =>
      have hctx2 := constrain_equal_ok_eq heq
      subst hctx2
      simp only [Prod.mk.injEq, Except.ok.injEq] at hw6
      obtain ⟨hc6eq, hreseq⟩ := hw6
      subst hc6eq
      have hcell : (⟨cfg.out, ctx.offset⟩ : CellRef) =
          ⟨cfg.out, (((writeOptFixed cfg.rc rcv c3).assign_fixed
            cfg.q_o qo).1).offset⟩ := by
        rw [hoff5]
      refine ⟨?_, ?_, ?_⟩
      · rw [hcell]
        exact List.mem_cons_self _ _
      · rw [hcell]
        exact List.mem_cons_self _ _
      · intro asg hs
        rw [hcell]
        exact hs _ (List.mem_cons_self _ _)
    next er heq => simp at hw6

/-- C3 witness: one `Assigned` state entry copying the value 2 from the
cell `(2, 0)` into state column 0 of row 0. -/
theorem apply_assigned_copy_constraint_witness :
    (∀ i, i < [WrapValue.Assigned (⟨some 2, ⟨2, 0⟩⟩ : AssignedValue F5)].length →
      ∀ avv, [WrapValue.Assigned (⟨some 2, ⟨2, 0⟩⟩ : AssignedValue F5)].getD i
          .Zero = .Assigned avv →
      ((⟨exCfg.state.getD i 0, exCtx.offset⟩, avv.value) : CellRef × Option F5) ∈
        (MainGate.apply exCfg exCtx (none, none,
          some [WrapValue.Assigned ⟨some 2, ⟨2, 0⟩⟩]) none
          ((1 : F5), .Unassigned (some 3))).1.backend.adviceCells ∧
      ((⟨exCfg.state.getD i 0, exCtx.offset⟩, avv.cell) : CellRef × CellRef) ∈
        (MainGate.apply exCfg exCtx (none, none,
          some [WrapValue.Assigned ⟨some 2, ⟨2, 0⟩⟩]) none
          ((1 : F5), .Unassigned (some 3))).1.backend.eqConstraints ∧
      ∀ asg : CellRef → F5,
        (∀ p ∈ (MainGate.apply exCfg exCtx (none, none,
            some [WrapValue.Assigned ⟨some 2, ⟨2, 0⟩⟩]) none
            ((1 : F5), .Unassigned (some 3))).1.backend.eqConstraints,
          asg p.1 = asg p.2) →
        asg ⟨exCfg.state.getD i 0, exCtx.offset⟩ = asg avv.cell) ∧
    (∀ avv, (WrapValue.Unassigned (some (3 : F5))) = .Assigned avv →
      ((⟨exCfg.out, exCtx.offset⟩, avv.value) : CellRef × Option F5) ∈
        (MainGate.apply exCfg exCtx (none, none,
          some [WrapValue.Assigned ⟨some 2, ⟨2, 0⟩⟩]) none
          ((1 : F5), .Unassigned (some 3))).1.backend.adviceCells ∧
      ((⟨exCfg.out, exCtx.offset⟩, avv.cell) : CellRef × CellRef) ∈
        (MainGate.apply exCfg exCtx (none, none,
          some [WrapValue.Assigned ⟨some 2, ⟨2, 0⟩⟩]) none
          ((1 : F5), .Unassigned (some 3))).1.backend.eqConstraints ∧
      ∀ asg : CellRef → F5,
        (∀ p ∈ (MainGate.apply exCfg exCtx (none, none,
            some [WrapValue.Assigned ⟨some 2, ⟨2, 0⟩⟩]) none
            ((1 : F5), .Unassigned (some 3))).1.backend.eqConstraints,
          asg p.1 = asg p.2) →
        asg ⟨exCfg.out, exCtx.offset⟩ = asg avv.cell) :=
  apply_assigned_copy_constraint exCfg exCtx
    ⟨⟨[(⟨10, 0⟩, 1)], [(⟨3, 0⟩, some 3), (⟨0, 0⟩, some 2)],
      [(⟨0, 0⟩, ⟨2, 0⟩)], [0, 1, 2, 3]⟩, 1⟩
    none none [WrapValue.Assigned ⟨some 2, ⟨2, 0⟩⟩] none 1
    (.Unassigned (some 3)) ⟨some 3, ⟨3, 0⟩⟩ (by rfl)

theorem nodup_getD_ne : ∀ (l : List Nat), l.Nodup → ∀ i j : Nat,
    i < l.length → j < l.length → i ≠ j → l.getD i 0 ≠ l.getD j 0 := by
  intro l
  induction l with
  | nil =>
      intro _ i j hi
      simp at hi
  | cons x xs ih =>
      intro hnd i j hi hj hij
      rw [List.nodup_cons] at hnd
      obtain ⟨hx, hnd'⟩ := hnd
      cases i with
      | zero =>
          cases j with
          | zero => exact absurd rfl hij
          | succ j' =>
              simp only [List.getD_cons_zero, List.getD_cons_succ]
              intro h
              exact hx (h ▸ getD_mem (by simpa using hj))
      | succ i' =>
          cases j with
          | zero =>
              simp only [List.getD_cons_zero, List.getD_cons_succ]
              intro h
              exact hx (h ▸ getD_mem (by simpa using hi))
          | succ j' =>
              simp only [List.getD_cons_succ]
              exact ih hnd' i' j' (by simpa using hi) (by simpa using hj)
                (fun h => hij (by rw [h]))

theorem writeOut_advice_lookup_other {F : Type} (cfg : MainGateConfig)
    (w : WrapValue F) (ctx : RegionCtx F) (c : CellRef)
    (h : c ≠ ⟨cfg.out, ctx.offset⟩) :
    lookupCell (writeOut cfg w ctx).1.backend.adviceCells c =
      lookupCell ctx.backend.adviceCells c := by
  cases w with
  | Unassigned vv => exact lookupCell_cons_ne _ _ _ _ (fun h' => h h'.symm)
  | Zero => rfl
  | Assigned avv =>
      have hstep : writeOut cfg (.Assigned avv) ctx =
          match (ctx.assign_advice cfg.out avv.value).1.constrain_equal
              (ctx.assign_advice cfg.out avv.value).2.cell avv.cell with
          | .ok ctx2 => (ctx2, .ok (ctx.assign_advice cfg.out avv.value).2)
          | .error er => ((ctx.assign_advice cfg.out avv.value).1, .error er) := rfl
      rw [hstep]
      split
      next ctx2 heq =>
        rw [constrain_equal_ok_eq heq]
        exact lookupCell_cons_ne _ _ _ _ (fun h' => h h'.symm)
      next er heq => exact lookupCell_cons_ne _ _ _ _ (fun h' => h h'.symm)

theorem writeOut_constraints_new {F : Type} (cfg : MainGateConfig)
    (w : WrapValue F) (ctx : RegionCtx F) (p : CellRef × CellRef)
    (hp : p ∈ (writeOut cfg w ctx).1.backend.eqConstraints) :
    p ∈ ctx.backend.eqConstraints ∨ p.1 = ⟨cfg.out, ctx.offset⟩ := by
  cases w with
  | Unassigned vv => exact Or.inl hp
  | Zero => exact Or.inl hp
  | Assigned avv =>
      have hstep : writeOut cfg (.Assigned avv) ctx =
          match (ctx.assign_advice cfg.out avv.value).1.constrain_equal
              (ctx.assign_advice cfg.out avv.value).2.cell avv.cell with
          | .ok ctx2 => (ctx2, .ok (ctx.assign_advice cfg.out avv.value).2)
          | .error er => ((ctx.assign_advice cfg.out avv.value).1, .error er) := rfl
      rw [hstep] at hp
      split at hp
      next ctx2 heq =>
        rw [constrain_equal_ok_eq heq] at hp
        rcases List.mem_cons.mp hp with h | h
        · right
          rw [h]
          rfl
        · exact Or.inl h
      next er heq => exact Or.inl hp

theorem writeStateSeq_zero_lookup {F : Type} (vals : List (WrapValue F)) :
    ∀ (cols : List Nat) (ctx : RegionCtx F) (i : Nat), cols.Nodup →
    i < vals.length → i < cols.length → vals.getD i .Zero = .Zero →
    lookupCell (writeStateSeq cols vals ctx).1.backend.adviceCells
      ⟨cols.getD i 0, ctx.offset⟩ =
    lookupCell ctx.backend.adviceCells ⟨cols.getD i 0, ctx.offset⟩ := by
  induction vals with
  | nil =>
      intro cols ctx i _ hi _ _
      simp at hi
  | cons w ws ih =>
      intro cols ctx i hnd hi hic hz
      cases cols with
      | nil => simp at hic
      | cons c0 cs =>
          rw [List.nodup_cons] at hnd
          obtain ⟨hc0, hnd'⟩ := hnd
          cases i with
          | zero =>
              rw [List.getD_cons_zero] at hz
              subst hz
              rw [show writeStateSeq (c0 :: cs) (.Zero :: ws) ctx =
                writeStateSeq cs ws ctx from rfl]
              exact writeStateSeq_advice_lookup_other ws cs ctx _ hc0
          | succ j =>
              have hjc : j < cs.length := by simpa using hic
              have hjw : j < ws.length := by simpa using hi
              have hne : (⟨c0, ctx.offset⟩ : CellRef) ≠
                  ⟨cs.getD j 0, ctx.offset⟩ := by
                intro h
                have hcol : c0 = cs.getD j 0 := congrArg CellRef.col h
                exact hc0 (hcol.symm ▸ getD_mem hjc)
              rw [List.getD_cons_succ] at hz
              simp only [List.getD_cons_succ]
              cases w with
              | Unassigned vv =>
                  rw [show writeStateSeq (c0 :: cs) (.Unassigned vv :: ws) ctx =
                    writeStateSeq cs ws (ctx.assign_advice c0 vv).1 from rfl]
                  have ihx : lookupCell (writeStateSeq cs ws
                      (ctx.assign_advice c0 vv).1).1.backend.adviceCells
                      ⟨cs.getD j 0, ctx.offset⟩ =
                      lookupCell (ctx.assign_advice c0 vv).1.backend.adviceCells
                      ⟨cs.getD j 0, ctx.offset⟩ :=
                    ih cs (ctx.assign_advice c0 vv).1 j hnd' hjw hjc hz
                  rw [ihx]
                  exact lookupCell_cons_ne _ _ _ _ hne
              | Zero =>
                  rw [show writeStateSeq (c0 :: cs) (.Zero :: ws) ctx =
                    writeStateSeq cs ws ctx from rfl]
                  exact ih cs ctx j hnd' hjw hjc hz
              | Assigned avv =>
                  have hstep : writeStateSeq (c0 :: cs) (.Assigned avv :: ws) ctx =
                      match (ctx.assign_advice c0 avv.value).1.constrain_equal
                          (ctx.assign_advice c0 avv.value).2.cell avv.cell with
                      | .ok ctx2 => writeStateSeq cs ws ctx2
                      | .error er =>
                          ((ctx.assign_advice c0 avv.value).1, .error er) := rfl
                  rw [hstep]
                  split
                  next ctx2 heq =>
                    rw [constrain_equal_ok_eq heq]
                    have ihx : lookupCell (writeStateSeq cs ws
                        { (ctx.assign_advice c0 avv.value).1 with backend :=
                          { (ctx.assign_advice c0 avv.value).1.backend with
                            eqConstraints :=
                              ((ctx.assign_advice c0 avv.value).2.cell, avv.cell) ::
                              (ctx.assign_advice c0 avv.value).1.backend.eqConstraints
                          } }).1.backend.adviceCells
                        ⟨cs.getD j 0, ctx.offset⟩ =
                        lookupCell (ctx.assign_advice c0 avv.value).1.backend.adviceCells
                        ⟨cs.getD j 0, ctx.offset⟩ :=
                      ih cs _ j hnd' hjw hjc hz
                    rw [ihx]
                    exact lookupCell_cons_ne _ _ _ _ hne
                  next er heq => exact lookupCell_cons_ne _ _ _ _ hne

theorem writeStateSeq_constraints_new {F : Type} (vals : List (WrapValue F)) :
    ∀ (cols : List Nat) (ctx : RegionCtx F) (p : CellRef × CellRef),
    p ∈ (writeStateSeq cols vals ctx).1.backend.eqConstraints →
    p ∈ ctx.backend.eqConstraints ∨
      ∃ j, j < vals.length ∧ j < cols.length ∧
        ∃ avv : AssignedValue F, vals.getD j .Zero = .Assigned avv ∧
          p = (⟨cols.getD j 0, ctx.offset⟩, avv.cell) := by
  induction vals with
  | nil =>
      intro cols ctx p hp
      left
      cases cols <;> exact hp
  | cons w ws ih =>
      intro cols ctx p hp
      cases cols with
      | nil =>
          left
          cases w <;> exact hp
      | cons c0 cs =>
          cases w with
          | Unassigned vv =>
              have hp' : p ∈ (writeStateSeq cs ws
                  (ctx.assign_advice c0 vv).1).1.backend.eqConstraints := hp
              rcases ih cs _ p hp' with h | ⟨j, hj, hjc, avv, hav, hpe⟩
              · exact Or.inl h
              · right
                refine ⟨j + 1, by simpa using hj, by simpa using hjc, avv,
                  by simpa using hav, ?_⟩
                simp only [List.getD_cons_succ]
                exact hpe
          | Zero =>
              have hp' : p ∈ (writeStateSeq cs ws ctx).1.backend.eqConstraints := hp
              rcases ih cs ctx p hp' with h | ⟨j, hj, hjc, avv, hav, hpe⟩
              · exact Or.inl h
              · right
                refine ⟨j + 1, by simpa using hj, by simpa using hjc, avv,
                  by simpa using hav, ?_⟩
                simp only [List.getD_cons_succ]
                exact hpe
          | Assigned avv0 =>
              have hstep : writeStateSeq (c0 :: cs) (.Assigned avv0 :: ws) ctx =
                  match (ctx.assign_advice c0 avv0.value).1.constrain_equal
                      (ctx.assign_advice c0 avv0.value).2.cell avv0.cell with
                  | .ok ctx2 => writeStateSeq cs ws ctx2
                  | .error er =>
                      ((ctx.assign_advice c0 avv0.value).1, .error er) := rfl
              rw [hstep] at hp
              split at hp
              next ctx2 heq =>
                have hctx2 := constrain_equal_ok_eq heq
                subst hctx2
                rcases ih cs _ p hp with h | ⟨j, hj, hjc, avv, hav, hpe⟩
                · rcases List.mem_cons.mp h with h0 | h0
                  · right
                    exact ⟨0, by simp, by simp, avv0, by simp, by simpa using h0⟩
                  · exact Or.inl h0
                · right
                  refine ⟨j + 1, by simpa using hj, by simpa using hjc, avv,
                    by simpa using hav, ?_⟩
                  simp only [List.getD_cons_succ]
                  exact hpe
              next er heq => exact Or.inl hp

/-- C10: an `apply` call whose state vector holds `WrapValue::Zero` at
position `i` silently skips that entry: the advice cell of state column
`i` at the current row is untouched, no equality constraint recorded by
the call has that cell as its newly written side, and processing a `Zero`
state entry is the identity step of the loop, introducing no failure — in
contrast to `Zero` in the output position, which is fatal. -/
theorem apply_zero_state_skipped {F : Type} (cfg : MainGateConfig)
    (ctx : RegionCtx F) (q1 : Option (List F)) (qm : Option F)
    (vs : List (WrapValue F)) (rcv : Option F) (qo : F) (outw : WrapValue F)
    (i : Nat) (hi : i < vs.length) (hic : i < cfg.state.length)
    (hz : vs.getD i .Zero = .Zero) (hnd : cfg.state.Nodup)
    (hout : cfg.out ∉ cfg.state) :
    lookupCell (MainGate.apply cfg ctx (q1, qm, some vs) rcv
        (qo, outw)).1.backend.adviceCells ⟨cfg.state.getD i 0, ctx.offset⟩ =
      lookupCell ctx.backend.adviceCells ⟨cfg.state.getD i 0, ctx.offset⟩ ∧
    (∀ p ∈ (MainGate.apply cfg ctx (q1, qm, some vs) rcv
        (qo, outw)).1.backend.eqConstraints,
      p ∈ ctx.backend.eqConstraints ∨
        p.1 ≠ ⟨cfg.state.getD i 0, ctx.offset⟩) ∧
    (∀ (cols : List Nat) (ws : List (WrapValue F)) (c0 : Nat)
        (ctx0 : RegionCtx F),
      writeStateSeq (c0 :: cols) (.Zero :: ws) ctx0 =
        writeStateSeq cols ws ctx0) := by
  have hd := apply_decomp cfg ctx q1 qm (some vs) rcv qo outw
  rcases hw1 : writeQ1 cfg q1 ctx with ⟨c1, u1⟩
  rw [hw1] at hd
  have hoff1 : c1.offset = ctx.offset := by
    have h := (writeQ1_preserves cfg q1 ctx).1
    rw [hw1] at h
    exact h
  have hadv1 : c1.backend.adviceCells = ctx.backend.adviceCells := by
    have h := (writeQ1_preserves cfg q1 ctx).2.1
    rw [hw1] at h
    exact h
  have hcon1 : c1.backend.eqConstraints = ctx.backend.eqConstraints := by
    have h := (writeQ1_preserves cfg q1 ctx).2.2.1
    rw [hw1] at h
    exact h
  cases u1 with
  | error e =>
      dsimp only at hd
      rw [hd]
      refine ⟨by rw [hadv1], ?_, fun _ _ _ _ => rfl⟩
      intro p hp
      rw [hcon1] at hp
      exact Or.inl hp
  | ok u =>
      dsimp only at hd
      rcases hw3 : writeState cfg (some vs) (writeOptFixed cfg.q_m qm c1)
        with ⟨c3, u3⟩
      rw [hw3] at hd
      have hw3' : writeStateSeq cfg.state vs (writeOptFixed cfg.q_m qm c1) =
          (c3, u3) := hw3
      have hoff2 : (writeOptFixed cfg.q_m qm c1).offset = ctx.offset := by
        rw [(writeOptFixed_preserves cfg.q_m qm c1).1, hoff1]
      have hlook3 : lookupCell c3.backend.adviceCells
          ⟨cfg.state.getD i 0, ctx.offset⟩ =
          lookupCell ctx.backend.adviceCells
          ⟨cfg.state.getD i 0, ctx.offset⟩ := by
        have h := writeStateSeq_zero_lookup vs cfg.state
          (writeOptFixed cfg.q_m qm c1) i hnd hi hic hz
        rw [hw3', hoff2] at h
        have h' : lookupCell c3.backend.adviceCells
            ⟨cfg.state.getD i 0, ctx.offset⟩ =
            lookupCell (writeOptFixed cfg.q_m qm c1).backend.adviceCells
            ⟨cfg.state.getD i 0, ctx.offset⟩ := h
        rw [h', (writeOptFixed_preserves cfg.q_m qm c1).2.1, hadv1]
      have hcon3 : ∀ p ∈ c3.backend.eqConstraints,
          p ∈ ctx.backend.eqConstraints ∨
            p.1 ≠ ⟨cfg.state.getD i 0, ctx.offset⟩ := by
        intro p hp
        have h := writeStateSeq_constraints_new vs cfg.state
          (writeOptFixed cfg.q_m qm c1) p (by rw [hw3']; exact hp)
        rcases h with h | ⟨j, hj, hjc, avv, hav, hpe⟩
        · left
          rw [(writeOptFixed_preserves cfg.q_m qm c1).2.2.1, hcon1] at h
          exact h
        · right
          have hij : j ≠ i := by
            intro h'
            rw [h', hz] at hav
            simp at hav
          rw [hpe]
          intro hcontra
          have hcol : cfg.state.getD j 0 = cfg.state.getD i 0 :=
            congrArg CellRef.col hcontra
          exact nodup_getD_ne cfg.state hnd j i hjc hic hij hcol
      cases u3 with
      | error e =>
          dsimp only at hd
          rw [hd]
          exact ⟨hlook3, hcon3, fun _ _ _ _ => rfl⟩
      | ok u3v =>
          dsimp only at hd
          have hoff3 : c3.offset = ctx.offset := by
            have h := (writeState_preserves cfg (some vs)
              (writeOptFixed cfg.q_m qm c1)).1
            rw [hw3] at h
            have h' : c3.offset = (writeOptFixed cfg.q_m qm c1).offset := h
            rw [h', hoff2]
          have hne_out : (⟨cfg.state.getD i 0, ctx.offset⟩ : CellRef) ≠
              ⟨cfg.out, (((writeOptFixed cfg.rc rcv c3).assign_fixed
                cfg.q_o qo).1).offset⟩ := by
            intro h
            have hcol : cfg.state.getD i 0 = cfg.out := congrArg CellRef.col h
            exact hout (hcol ▸ getD_mem hic)
          rcases hw6 : writeOut cfg outw
              (((writeOptFixed cfg.rc rcv c3).assign_fixed cfg.q_o qo).1)
            with ⟨c6, u6⟩
          rw [hw6] at hd
          have hlook6 : lookupCell c6.backend.adviceCells
              ⟨cfg.state.getD i 0, ctx.offset⟩ =
              lookupCell ctx.backend.adviceCells
              ⟨cfg.state.getD i 0, ctx.offset⟩ := by
            have h := writeOut_advice_lookup_other cfg outw
              (((writeOptFixed cfg.rc rcv c3).assign_fixed cfg.q_o qo).1)
              ⟨cfg.state.getD i 0, ctx.offset⟩ hne_out
            rw [hw6] at h
            have h' : lookupCell c6.backend.adviceCells
                ⟨cfg.state.getD i 0, ctx.offset⟩ =
                lookupCell (writeOptFixed cfg.rc rcv c3).backend.adviceCells
                ⟨cfg.state.getD i 0, ctx.offset⟩ := h
            rw [h', (writeOptFixed_preserves cfg.rc rcv c3).2.1, hlook3]
          have hcon6 : ∀ p ∈ c6.backend.eqConstraints,
              p ∈ ctx.backend.eqConstraints ∨
                p.1 ≠ ⟨cfg.state.getD i 0, ctx.offset⟩ := by
            intro p hp
            have h := writeOut_constraints_new cfg outw
              (((writeOptFixed cfg.rc rcv c3).assign_fixed cfg.q_o qo).1) p
              (by rw [hw6]; exact hp)
            rcases h with h | hpe
            · have h' : p ∈ (writeOptFixed cfg.rc rcv c3).backend.eqConstraints := h
              rw [(writeOptFixed_preserves cfg.rc rcv c3).2.2.1] at h'
              exact hcon3 p h'
            · right
              rw [hpe]
              intro hcontra
              have hcol : cfg.out = cfg.state.getD i 0 :=
                congrArg CellRef.col hcontra
              exact hout (hcol.symm ▸ getD_mem hic)
          cases u6 with
          | ok res =>
              dsimp only at hd
              rw [hd]
              exact ⟨hlook6, hcon6, fun _ _ _ _ => rfl⟩
          | error e =>
              dsimp only at hd
              rw [hd]
              exact ⟨hlook6, hcon6, fun _ _ _ _ => rfl⟩

/-- C10 witness: `Zero` at state position 0, a real value at position 1. -/
theorem apply_zero_state_skipped_witness :
    lookupCell (MainGate.apply exCfg exCtx (none, none,
        some [WrapValue.Zero, WrapValue.Unassigned (some 2)]) none
        ((1 : F5), .Unassigned (some 1))).1.backend.adviceCells
        ⟨exCfg.state.getD 0 0, exCtx.offset⟩ =
      lookupCell exCtx.backend.adviceCells ⟨exCfg.state.getD 0 0, exCtx.offset⟩ ∧
    (∀ p ∈ (MainGate.apply exCfg exCtx (none, none,
        some [WrapValue.Zero, WrapValue.Unassigned (some 2)]) none
        ((1 : F5), .Unassigned (some 1))).1.backend.eqConstraints,
      p ∈ exCtx.backend.eqConstraints ∨
        p.1 ≠ ⟨exCfg.state.getD 0 0, exCtx.offset⟩) ∧
    (∀ (cols : List Nat) (ws : List (WrapValue F5)) (c0 : Nat)
        (ctx0 : RegionCtx F5),
      writeStateSeq (c0 :: cols) (.Zero :: ws) ctx0 =
        writeStateSeq cols ws ctx0) :=
  apply_zero_state_skipped exCfg exCtx none none
    [WrapValue.Zero, WrapValue.Unassigned (some 2)] none 1
    (.Unassigned (some 1)) 0 (by decide) (by decide) (by decide) (by decide)
    (by decide)

theorem revZipF_cons {F : Type} (c : Nat) (cs : List Nat) (v : F) (vs : List F)
    (row : Nat) :
    revZipF (c :: cs) (v :: vs) row =
      revZipF cs vs row ++ [(⟨c, row⟩, v)] := by
  simp [revZipF]

theorem revZipF_mem {F : Type} (d : F) (vals : List F) :
    ∀ (cols : List Nat) (row i : Nat),
    i < vals.length → vals.length ≤ cols.length →
    ((⟨cols.getD i 0, row⟩, vals.getD i d) : CellRef × F) ∈
      revZipF cols vals row := by
  induction vals with
  | nil =>
      intro cols row i hi
      simp at hi
  | cons v vs ih =>
      intro cols row i hi hlen
      cases cols with
      | nil => simp at hlen
      | cons c cs =>
          rw [revZipF_cons]
          cases i with
          | zero =>
              simp only [List.getD_cons_zero]
              exact List.mem_append_right _ (by simp)
          | succ j =>
              simp only [List.getD_cons_succ]
              exact List.mem_append_left _
                (ih cs row j (by simpa using hi) (by simpa using hlen))

theorem writeOptFixed_fixed_mono {F : Type} (column : Nat) (v : Option F)
    (ctx : RegionCtx F) (e : CellRef × F) (he : e ∈ ctx.backend.fixedCells) :
    e ∈ (writeOptFixed column v ctx).backend.fixedCells := by
  cases v with
  | none => exact he
  | some x => exact List.mem_cons_of_mem _ he

/-- C5 counterexample: an `apply` call that fails midway — the copy
constraint against column 99, which has no equality enablement, is
rejected after the `q_1` selector and the state advice value were already
written — leaves the column model changed, so a failing call does not
leave the model untouched. -/
theorem apply_failure_not_atomic_cx :
    exceptOk (MainGate.apply exCfg exCtx
      (some [(1 : F5)], none, some [.Assigned ⟨some 7, ⟨99, 0⟩⟩]) none
      ((1 : F5), .Unassigned (some 1))).2 = false ∧
    (MainGate.apply exCfg exCtx
      (some [(1 : F5)], none, some [.Assigned ⟨some 7, ⟨99, 0⟩⟩]) none
      ((1 : F5), .Unassigned (some 1))).1.backend ≠ exCtx.backend := by
  decide

/-- C5 (amended): a successful `apply` call wrote the whole row tuple —
every provided `q_1` value, `q_m`, every non-`Zero` state entry (with its
copy constraint for `Assigned` entries), `rc`, the mandatory `q_o`, and
the output — into the current row, returned the assigned output cell, and
advanced the cursor by one.  (On failure, the writes performed before the
failing operation remain: see the counterexample.) -/
theorem apply_success_writes_whole_row {F : Type} [Field F]
    (cfg : MainGateConfig) (ctx ctx' : RegionCtx F) (q1 : Option (List F))
    (qm : Option F) (st : Option (List (WrapValue F))) (rcv : Option F)
    (qo : F) (outw : WrapValue F) (res : AssignedValue F)
    (happ : MainGate.apply cfg ctx (q1, qm, st) rcv (qo, outw) =
      (ctx', .ok res)) :
    ctx'.offset = ctx.offset + 1 ∧
    res.cell = ⟨cfg.out, ctx.offset⟩ ∧
    (∀ l, q1 = some l → ∀ i, i < l.length →
      ((⟨cfg.q_1.getD i 0, ctx.offset⟩, l.getD i 0) : CellRef × F) ∈
        ctx'.backend.fixedCells) ∧
    (∀ m, qm = some m →
      ((⟨cfg.q_m, ctx.offset⟩, m) : CellRef × F) ∈ ctx'.backend.fixedCells) ∧
    (∀ vs, st = some vs → ∀ i, i < vs.length →
      (∀ vv, vs.getD i .Zero = .Unassigned vv →
        ((⟨cfg.state.getD i 0, ctx.offset⟩, vv) : CellRef × Option F) ∈
          ctx'.backend.adviceCells) ∧
      (∀ avv, vs.getD i .Zero = .Assigned avv →
        ((⟨cfg.state.getD i 0, ctx.offset⟩, avv.value) : CellRef × Option F) ∈
          ctx'.backend.adviceCells ∧
        ((⟨cfg.state.getD i 0, ctx.offset⟩, avv.cell) : CellRef × CellRef) ∈
          ctx'.backend.eqConstraints)) ∧
    (∀ r, rcv = some r →
      ((⟨cfg.rc, ctx.offset⟩, r) : CellRef × F) ∈ ctx'.backend.fixedCells) ∧
    ((⟨cfg.q_o, ctx.offset⟩, qo) : CellRef × F) ∈ ctx'.backend.fixedCells ∧
    (∀ vv, outw = .Unassigned vv →
      ((⟨cfg.out, ctx.offset⟩, vv) : CellRef × Option F) ∈
        ctx'.backend.adviceCells) ∧
    (∀ avv, outw = .Assigned avv →
      ((⟨cfg.out, ctx.offset⟩, avv.value) : CellRef × Option F) ∈
        ctx'.backend.adviceCells) := by
  obtain ⟨c1, u1, c3, u3, c6, hw1, hw3, hw6, hctx'⟩ :=
    apply_ok_parts cfg ctx q1 qm st rcv qo outw ctx' res happ
  obtain ⟨hoff1, hoff3⟩ := apply_parts_offsets hw1 hw3
  subst hctx'
  have hoff5 : (((writeOptFixed cfg.rc rcv c3).assign_fixed
      cfg.q_o qo).1).offset = ctx.offset := by
    show (writeOptFixed cfg.rc rcv c3).offset = ctx.offset
    rw [(writeOptFixed_preserves cfg.rc rcv c3).1, hoff3]
  have hfix3 : c3.backend.fixedCells =
      (writeOptFixed cfg.q_m qm c1).backend.fixedCells := by
    have h := (writeState_preserves cfg st (writeOptFixed cfg.q_m qm c1)).2.1
    rw [hw3] at h
    exact h
  have hfix6 : c6.backend.fixedCells =
      ((⟨cfg.q_o, (writeOptFixed cfg.rc rcv c3).offset⟩ : CellRef), qo) ::
        (writeOptFixed cfg.rc rcv c3).backend.fixedCells := by
    have h := (writeOut_preserves cfg outw
      (((writeOptFixed cfg.rc rcv c3).assign_fixed cfg.q_o qo).1)).2.1
    rw [hw6] at h
    exact h
  have hfixT : ∀ e : CellRef × F, e ∈ c3.backend.fixedCells →
      e ∈ c6.backend.fixedCells := by
    intro e he
    rw [hfix6]
    exact List.mem_cons_of_mem _ (writeOptFixed_fixed_mono cfg.rc rcv c3 e he)
  have hfixT1 : ∀ e : CellRef × F, e ∈ c1.backend.fixedCells →
      e ∈ c6.backend.fixedCells := by
    intro e he
    apply hfixT
    rw [hfix3]
    exact writeOptFixed_fixed_mono cfg.q_m qm c1 e he
  have hadv6 : ∀ e : CellRef × Option F, e ∈ c3.backend.adviceCells →
      e ∈ c6.backend.adviceCells := by
    intro e he
    have he5 : e ∈ (((writeOptFixed cfg.rc rcv c3).assign_fixed
        cfg.q_o qo).1).backend.adviceCells := by
      show e ∈ (writeOptFixed cfg.rc rcv c3).backend.adviceCells
      rw [(writeOptFixed_preserves cfg.rc rcv c3).2.1]
      exact he
    have h6 := writeOut_advice_mono cfg outw _ e he5
    rw [hw6] at h6
    exact h6
  have hcon6 : ∀ p : CellRef × CellRef, p ∈ c3.backend.eqConstraints →
      p ∈ c6.backend.eqConstraints := by
    intro p hp
    have hp5 : p ∈ (((writeOptFixed cfg.rc rcv c3).assign_fixed
        cfg.q_o qo).1).backend.eqConstraints := by
      show p ∈ (writeOptFixed cfg.rc rcv c3).backend.eqConstraints
      rw [(writeOptFixed_preserves cfg.rc rcv c3).2.2.1]
      exact hp
    have h6 := writeOut_constraints_mono cfg outw _ p hp5
    rw [hw6] at h6
    exact h6
  have hc6off : c6.offset = ctx.offset := by
    have h := (writeOut_preserves cfg outw
      (((writeOptFixed cfg.rc rcv c3).assign_fixed cfg.q_o qo).1)).1
    rw [hw6] at h
    have h' : c6.offset = (((writeOptFixed cfg.rc rcv c3).assign_fixed
        cfg.q_o qo).1).offset := h
    rw [h', hoff5]
  have hout3 : res.cell = (⟨cfg.out, ctx.offset⟩ : CellRef) ∧
      (∀ vv, outw = .Unassigned vv →
        ((⟨cfg.out, ctx.offset⟩, vv) : CellRef × Option F) ∈
          c6.backend.adviceCells) ∧
      (∀ avv, outw = .Assigned avv →
        ((⟨cfg.out, ctx.offset⟩, avv.value) : CellRef × Option F) ∈
          c6.backend.adviceCells) := by
    have hcellout : ∀ w : Option F,
        ((⟨cfg.out, ctx.offset⟩, w) : CellRef × Option F) =
        (⟨cfg.out, (((writeOptFixed cfg.rc rcv c3).assign_fixed
          cfg.q_o qo).1).offset⟩, w) := by
      intro w
      rw [hoff5]
    cases outw with
    | Zero => simp [writeOut] at hw6
    | Unassigned vv =>
        simp only [writeOut, Prod.mk.injEq, Except.ok.injEq] at hw6
        obtain ⟨hc6eq, hres⟩ := hw6
        refine ⟨?_, ?_, ?_⟩
        · rw [← hres]
          show (⟨cfg.out, (((writeOptFixed cfg.rc rcv c3).assign_fixed
            cfg.q_o qo).1).offset⟩ : CellRef) = ⟨cfg.out, ctx.offset⟩
          rw [hoff5]
        · intro vv' hvv'
          injection hvv' with hv
          subst hv
          rw [← hc6eq, hcellout vv]
          exact List.mem_cons_self _ _
        · intro avv h0
          simp at h0
    | Assigned avv =>
        have hstep : writeOut cfg (.Assigned avv)
            (((writeOptFixed cfg.rc rcv c3).assign_fixed cfg.q_o qo).1) =
            match ((((writeOptFixed cfg.rc rcv c3).assign_fixed
                  cfg.q_o qo).1).assign_advice cfg.out avv.value).1.constrain_equal
                ((((writeOptFixed cfg.rc rcv c3).assign_fixed
                  cfg.q_o qo).1).assign_advice cfg.out avv.value).2.cell
                avv.cell with
            | .ok ctx2 => (ctx2, .ok ((((writeOptFixed cfg.rc rcv c3).assign_fixed
                cfg.q_o qo).1).assign_advice cfg.out avv.value).2)
            | .error er => (((((writeOptFixed cfg.rc rcv c3).assign_fixed
                cfg.q_o qo).1).assign_advice cfg.out avv.value).1, .error er) := rfl
        rw [hstep] at hw6
        split at hw6
        next ctx2 heq =>
          have hctx2 := constrain_equal_ok_eq heq
          subst hctx2
          simp only [Prod.mk.injEq, Except.ok.injEq] at hw6
          obtain ⟨hc6eq, hres⟩ := hw6
          refine ⟨?_, ?_, ?_⟩
          · rw [← hres]
            show (⟨cfg.out, (((writeOptFixed cfg.rc rcv c3).assign_fixed
              cfg.q_o qo).1).offset⟩ : CellRef) = ⟨cfg.out, ctx.offset⟩
            rw [hoff5]
          · intro vv' hvv'
            simp at hvv'
          · intro avv' h0
            injection h0 with hv
            subst hv
            rw [← hc6eq, hcellout avv.value]
            exact List.mem_cons_self _ _
        next er heq => simp at hw6
  refine ⟨?_, hout3.1, ?_, ?_, ?_, ?_, ?_, ?_, ?_⟩
  · show c6.offset + 1 = ctx.offset + 1
    rw [hc6off]
  · intro l hl i hi
    subst hl
    apply hfixT1
    have h : writeFixedSeq cfg.q_1 l ctx = (c1, .ok u1) := hw1
    rw [writeFixedSeq_eq] at h
    by_cases hlen : l.length ≤ cfg.q_1.length
    · rw [if_pos hlen] at h
      simp only [Prod.mk.injEq] at h
      obtain ⟨hc, _⟩ := h
      rw [← hc]
      show _ ∈ revZipF cfg.q_1 l ctx.offset ++ ctx.backend.fixedCells
      exact List.mem_append_left _ (revZipF_mem 0 l cfg.q_1 ctx.offset i hi hlen)
    · rw [if_neg hlen] at h
      simp at h
  · intro m hm
    subst hm
    apply hfixT
    rw [hfix3]
    have hcell : ((⟨cfg.q_m, ctx.offset⟩ : CellRef), m) =
        ((⟨cfg.q_m, c1.offset⟩ : CellRef), m) := by
      rw [hoff1]
    rw [hcell]
    exact List.mem_cons_self _ _
  · intro vs hst i hi
    subst hst
    have hw3' : writeStateSeq cfg.state vs (writeOptFixed cfg.q_m qm c1) =
        (c3, .ok u3) := hw3
    have hseq : (writeStateSeq cfg.state vs
        (writeOptFixed cfg.q_m qm c1)).2 = .ok () := by
      rw [hw3']
    have hoffeq : (writeOptFixed cfg.q_m qm c1).offset = ctx.offset := by
      rw [(writeOptFixed_preserves cfg.q_m qm c1).1, hoff1]
    have hmem := writeStateSeq_mem vs cfg.state
      (writeOptFixed cfg.q_m qm c1) hseq i hi
    constructor
    · intro vv hvv
      have h := hmem.1 vv hvv
      rw [hw3', hoffeq] at h
      exact hadv6 _ h
    · intro avv hAss
      obtain ⟨hA, hC⟩ := hmem.2 avv hAss
      rw [hw3', hoffeq] at hA
      rw [hw3', hoffeq] at hC
      exact ⟨hadv6 _ hA, hcon6 _ hC⟩
  · intro r hr
    subst hr
    show ((⟨cfg.rc, ctx.offset⟩ : CellRef), r) ∈ c6.backend.fixedCells
    rw [hfix6]
    apply List.mem_cons_of_mem
    have hcell : ((⟨cfg.rc, ctx.offset⟩ : CellRef), r) =
        ((⟨cfg.rc, c3.offset⟩ : CellRef), r) := by
      rw [hoff3]
    rw [hcell]
    exact List.mem_cons_self _ _
  · show ((⟨cfg.q_o, ctx.offset⟩ : CellRef), qo) ∈ c6.backend.fixedCells
    rw [hfix6]
    have hcell : ((⟨cfg.q_o, ctx.offset⟩ : CellRef), qo) =
        ((⟨cfg.q_o, (writeOptFixed cfg.rc rcv c3).offset⟩ : CellRef), qo) := by
      rw [(writeOptFixed_preserves cfg.rc rcv c3).1, hoff3]
    rw [hcell]
    exact List.mem_cons_self _ _
  · exact hout3.2.1
  · exact hout3.2.2

/-- C5 witness: a fully specified successful `apply` call. -/
theorem apply_success_writes_whole_row_witness :
    (⟨⟨[(⟨10, 0⟩, 0), (⟨11, 0⟩, 4), (⟨8, 0⟩, 2), (⟨4, 0⟩, 1)],
        [(⟨3, 0⟩, some 0), (⟨0, 0⟩, some 3)], [], [0, 1, 2, 3]⟩, 1⟩ :
      RegionCtx F5).offset = exCtx.offset + 1 ∧
    (⟨some 0, ⟨3, 0⟩⟩ : AssignedValue F5).cell = ⟨exCfg.out, exCtx.offset⟩ ∧
    (∀ l, (some [(1 : F5)]) = some l → ∀ i, i < l.length →
      ((⟨exCfg.q_1.getD i 0, exCtx.offset⟩, l.getD i 0) : CellRef × F5) ∈
        (⟨⟨[(⟨10, 0⟩, 0), (⟨11, 0⟩, 4), (⟨8, 0⟩, 2), (⟨4, 0⟩, 1)],
          [(⟨3, 0⟩, some 0), (⟨0, 0⟩, some 3)], [], [0, 1, 2, 3]⟩, 1⟩ :
            RegionCtx F5).backend.fixedCells) ∧
    (∀ m, (some (2 : F5)) = some m →
      ((⟨exCfg.q_m, exCtx.offset⟩, m) : CellRef × F5) ∈
        (⟨⟨[(⟨10, 0⟩, 0), (⟨11, 0⟩, 4), (⟨8, 0⟩, 2), (⟨4, 0⟩, 1)],
          [(⟨3, 0⟩, some 0), (⟨0, 0⟩, some 3)], [], [0, 1, 2, 3]⟩, 1⟩ :
            RegionCtx F5).backend.fixedCells) ∧
    (∀ vs, (some [WrapValue.Unassigned (some (3 : F5))]) = some vs →
      ∀ i, i < vs.length →
      (∀ vv, vs.getD i .Zero = .Unassigned vv →
        ((⟨exCfg.state.getD i 0, exCtx.offset⟩, vv) : CellRef × Option F5) ∈
          (⟨⟨[(⟨10, 0⟩, 0), (⟨11, 0⟩, 4), (⟨8, 0⟩, 2), (⟨4, 0⟩, 1)],
            [(⟨3, 0⟩, some 0), (⟨0, 0⟩, some 3)], [], [0, 1, 2, 3]⟩, 1⟩ :
              RegionCtx F5).backend.adviceCells) ∧
      (∀ avv, vs.getD i .Zero = .Assigned avv →
        ((⟨exCfg.state.getD i 0, exCtx.offset⟩, avv.value) :
            CellRef × Option F5) ∈
          (⟨⟨[(⟨10, 0⟩, 0), (⟨11, 0⟩, 4), (⟨8, 0⟩, 2), (⟨4, 0⟩, 1)],
            [(⟨3, 0⟩, some 0), (⟨0, 0⟩, some 3)], [], [0, 1, 2, 3]⟩, 1⟩ :
              RegionCtx F5).backend.adviceCells ∧
        ((⟨exCfg.state.getD i 0, exCtx.offset⟩, avv.cell) :
            CellRef × CellRef) ∈
          (⟨⟨[(⟨10, 0⟩, 0), (⟨11, 0⟩, 4), (⟨8, 0⟩, 2), (⟨4, 0⟩, 1)],
            [(⟨3, 0⟩, some 0), (⟨0, 0⟩, some 3)], [], [0, 1, 2, 3]⟩, 1⟩ :
              RegionCtx F5).backend.eqConstraints)) ∧
    (∀ r, (some (4 : F5)) = some r →
      ((⟨exCfg.rc, exCtx.offset⟩, r) : CellRef × F5) ∈
        (⟨⟨[(⟨10, 0⟩, 0), (⟨11, 0⟩, 4), (⟨8, 0⟩, 2), (⟨4, 0⟩, 1)],
          [(⟨3, 0⟩, some 0), (⟨0, 0⟩, some 3)], [], [0, 1, 2, 3]⟩, 1⟩ :
            RegionCtx F5).backend.fixedCells) ∧
    ((⟨exCfg.q_o, exCtx.offset⟩, (0 : F5)) : CellRef × F5) ∈
      (⟨⟨[(⟨10, 0⟩, 0), (⟨11, 0⟩, 4), (⟨8, 0⟩, 2), (⟨4, 0⟩, 1)],
        [(⟨3, 0⟩, some 0), (⟨0, 0⟩, some 3)], [], [0, 1, 2, 3]⟩, 1⟩ :
          RegionCtx F5).backend.fixedCells ∧
    (∀ vv, (WrapValue.Unassigned (some (0 : F5))) = .Unassigned vv →
      ((⟨exCfg.out, exCtx.offset⟩, vv) : CellRef × Option F5) ∈
        (⟨⟨[(⟨10, 0⟩, 0), (⟨11, 0⟩, 4), (⟨8, 0⟩, 2), (⟨4, 0⟩, 1)],
          [(⟨3, 0⟩, some 0), (⟨0, 0⟩, some 3)], [], [0, 1, 2, 3]⟩, 1⟩ :
            RegionCtx F5).backend.adviceCells) ∧
    (∀ avv, (WrapValue.Unassigned (some (0 : F5))) = .Assigned avv →
      ((⟨exCfg.out, exCtx.offset⟩, avv.value) : CellRef × Option F5) ∈
        (⟨⟨[(⟨10, 0⟩, 0), (⟨11, 0⟩, 4), (⟨8, 0⟩, 2), (⟨4, 0⟩, 1)],
          [(⟨3, 0⟩, some 0), (⟨0, 0⟩, some 3)], [], [0, 1, 2, 3]⟩, 1⟩ :
            RegionCtx F5).backend.adviceCells) :=
  apply_success_writes_whole_row exCfg exCtx
    ⟨⟨[(⟨10, 0⟩, 0), (⟨11, 0⟩, 4), (⟨8, 0⟩, 2), (⟨4, 0⟩, 1)],
      [(⟨3, 0⟩, some 0), (⟨0, 0⟩, some 3)], [], [0, 1, 2, 3]⟩, 1⟩
    (some [1]) (some 2) (some [WrapValue.Unassigned (some 3)]) (some 4) 0
    (.Unassigned (some 0)) ⟨some 0, ⟨3, 0⟩⟩ (by rfl)

theorem ctxREq_refl {F : Type} [Field F] (c : RegionCtx F) : ctxREq c c :=
  ⟨rfl, rfl, rfl, rfl, fun _ => rfl⟩

theorem ctxREq_trans {F : Type} [Field F] {a b c : RegionCtx F}
    (h1 : ctxREq a b) (h2 : ctxREq b c) : ctxREq a c := by
  obtain ⟨o1, a1, n1, e1, f1⟩ := h1
  obtain ⟨o2, a2, n2, e2, f2⟩ := h2
  exact ⟨o1.trans o2, a1.trans a2, n1.trans n2, e1.trans e2,
    fun cell => (f1 cell).trans (f2 cell)⟩

theorem eval_congr_fix {F : Type} [Field F] (a f1 f2 : Nat → F)
    (hf : ∀ i, f1 i = f2 i) : ∀ e : Expression F, e.eval a f1 = e.eval a f2 := by
  intro e
  induction e with
  | const c => rfl
  | advice i => rfl
  | fixed i => exact hf i
  | add x y ihx ihy => simp [Expression.eval, ihx, ihy]
  | mul x y ihx ihy => simp [Expression.eval, ihx, ihy]

theorem accepts_congr {F : Type} [Field F] (gates : List (Expression F))
    (b1 b2 : Backend F) (hcon : b1.eqConstraints = b2.eqConstraints)
    (hf : ∀ cell, fixedValD b1 cell = fixedValD b2 cell) (asg : CellRef → F) :
    accepts gates b1 asg ↔ accepts gates b2 asg := by
  unfold accepts
  rw [hcon]
  constructor
  · rintro ⟨hg, hc⟩
    refine ⟨?_, hc⟩
    intro g hgm row
    rw [← eval_congr_fix (fun c => asg ⟨c, row⟩) _ _ (fun c => hf ⟨c, row⟩) g]
    exact hg g hgm row
  · rintro ⟨hg, hc⟩
    refine ⟨?_, hc⟩
    intro g hgm row
    rw [eval_congr_fix (fun c => asg ⟨c, row⟩) _ _ (fun c => hf ⟨c, row⟩) g]
    exact hg g hgm row

theorem assign_fixed_ctxREq {F : Type} [Field F] {c1 c2 : RegionCtx F}
    (h : ctxREq c1 c2) (col : Nat) (v : F) :
    ctxREq (c1.assign_fixed col v).1 (c2.assign_fixed col v).1 ∧
    (c1.assign_fixed col v).2 = (c2.assign_fixed col v).2 := by
  obtain ⟨ho, ha, hc, he, hf⟩ := h
  refine ⟨⟨ho, ha, hc, he, ?_⟩, ?_⟩
  · intro cell
    show (lookupCell (((⟨col, c1.offset⟩ : CellRef), v) ::
        c1.backend.fixedCells) cell).getD 0 =
      (lookupCell (((⟨col, c2.offset⟩ : CellRef), v) ::
        c2.backend.fixedCells) cell).getD 0
    rw [← ho]
    by_cases hcell : (⟨col, c1.offset⟩ : CellRef) = cell
    · rw [show lookupCell (((⟨col, c1.offset⟩ : CellRef), v) ::
          c1.backend.fixedCells) cell = some v from by
            rw [← hcell]; exact lookupCell_cons_self _ _ _,
        show lookupCell (((⟨col, c1.offset⟩ : CellRef), v) ::
          c2.backend.fixedCells) cell = some v from by
            rw [← hcell]; exact lookupCell_cons_self _ _ _]
    · rw [lookupCell_cons_ne _ _ _ _ hcell, lookupCell_cons_ne _ _ _ _ hcell]
      exact hf cell
  · show (⟨some v, ⟨col, c1.offset⟩⟩ : AssignedValue F) =
      ⟨some v, ⟨col, c2.offset⟩⟩
    rw [ho]

theorem assign_advice_ctxREq {F : Type} [Field F] {c1 c2 : RegionCtx F}
    (h : ctxREq c1 c2) (col : Nat) (v : Option F) :
    ctxREq (c1.assign_advice col v).1 (c2.assign_advice col v).1 ∧
    (c1.assign_advice col v).2 = (c2.assign_advice col v).2 := by
  obtain ⟨ho, ha, hc, he, hf⟩ := h
  refine ⟨⟨ho, ?_, hc, he, hf⟩, ?_⟩
  · show ((⟨col, c1.offset⟩ : CellRef), v) :: c1.backend.adviceCells =
      ((⟨col, c2.offset⟩ : CellRef), v) :: c2.backend.adviceCells
    rw [ho, ha]
  · show (⟨v, ⟨col, c1.offset⟩⟩ : AssignedValue F) = ⟨v, ⟨col, c2.offset⟩⟩
    rw [ho]

theorem constrain_equal_not_mem {F : Type} (ctx : RegionCtx F) (a b : CellRef)
    (h : ¬(a.col ∈ ctx.backend.eqEnabled ∧ b.col ∈ ctx.backend.eqEnabled)) :
    ctx.constrain_equal a b = .error .notEnabled := by
  unfold RegionCtx.constrain_equal
  rw [if_neg h]

theorem writeOptFixed_ctxREq {F : Type} [Field F] {c1 c2 : RegionCtx F}
    (h : ctxREq c1 c2) (col : Nat) (v : Option F) :
    ctxREq (writeOptFixed col v c1) (writeOptFixed col v c2) := by
  cases v with
  | none => exact h
  | some x => exact (assign_fixed_ctxREq h col x).1

theorem writeFixedSeq_ctxREq {F : Type} [Field F] (vals : List F) :
    ∀ (cols : List Nat) {c1 c2 : RegionCtx F}, ctxREq c1 c2 →
    ctxREq (writeFixedSeq cols vals c1).1 (writeFixedSeq cols vals c2).1 ∧
    (writeFixedSeq cols vals c1).2 = (writeFixedSeq cols vals c2).2 := by
  induction vals with
  | nil =>
      intro cols c1 c2 h
      cases cols <;> exact ⟨h, rfl⟩
  | cons v vs ih =>
      intro cols c1 c2 h
      cases cols with
      | nil => exact ⟨h, rfl⟩
      | cons c cs => exact ih cs (assign_fixed_ctxREq h c v).1

theorem writeStateSeq_ctxREq {F : Type} [Field F] (vals : List (WrapValue F)) :
    ∀ (cols : List Nat) {c1 c2 : RegionCtx F}, ctxREq c1 c2 →
    ctxREq (writeStateSeq cols vals c1).1 (writeStateSeq cols vals c2).1 ∧
    (writeStateSeq cols vals c1).2 = (writeStateSeq cols vals c2).2 := by
  induction vals with
  | nil =>
      intro cols c1 c2 h
      cases cols <;> exact ⟨h, rfl⟩
  | cons w ws ih =>
      intro cols c1 c2 h
      cases cols with
      | nil => cases w <;> exact ⟨h, rfl⟩
      | cons c cs =>
          cases w with
          | Unassigned vv => exact ih cs (assign_advice_ctxREq h c vv).1
          | Zero => exact ih cs h
          | Assigned avv =>
              obtain ⟨hR, hcell⟩ := assign_advice_ctxREq h c avv.value
              have hcc : (c1.assign_advice c avv.value).2.cell =
                  (c2.assign_advice c avv.value).2.cell :=
                congrArg AssignedValue.cell hcell
              rw [show writeStateSeq (c :: cs) (.Assigned avv :: ws) c1 =
                  match (c1.assign_advice c avv.value).1.constrain_equal
                      (c1.assign_advice c avv.value).2.cell avv.cell with
                  | .ok ctx2 => writeStateSeq cs ws ctx2
                  | .error er =>
                      ((c1.assign_advice c avv.value).1, .error er) from rfl,
                show writeStateSeq (c :: cs) (.Assigned avv :: ws) c2 =
                  match (c2.assign_advice c avv.value).1.constrain_equal
                      (c2.assign_advice c avv.value).2.cell avv.cell with
                  | .ok ctx2 => writeStateSeq cs ws ctx2
                  | .error er =>
                      ((c2.assign_advice c avv.value).1, .error er) from rfl]
              obtain ⟨ho, ha, hc, he, hf⟩ := hR
              by_cases hen : ((c1.assign_advice c avv.value).2.cell.col ∈
                  (c1.assign_advice c avv.value).1.backend.eqEnabled ∧
                  avv.cell.col ∈
                  (c1.assign_advice c avv.value).1.backend.eqEnabled)
              · have h1 := constrain_equal_ok_of_mem
                  (c1.assign_advice c avv.value).1
                  (c1.assign_advice c avv.value).2.cell avv.cell hen.1 hen.2
                have hen2 : ((c2.assign_advice c avv.value).2.cell.col ∈
                    (c2.assign_advice c avv.value).1.backend.eqEnabled ∧
                    avv.cell.col ∈
                    (c2.assign_advice c avv.value).1.backend.eqEnabled) := by
                  rw [← hcc, ← he]
                  exact hen
                have h2 := constrain_equal_ok_of_mem
                  (c2.assign_advice c avv.value).1
                  (c2.assign_advice c avv.value).2.cell avv.cell hen2.1 hen2.2
                rw [h1, h2]
                dsimp only
                refine ih cs ⟨ho, ha, ?_, he, hf⟩
                show ((c1.assign_advice c avv.value).2.cell, avv.cell) ::
                    (c1.assign_advice c avv.value).1.backend.eqConstraints =
                  ((c2.assign_advice c avv.value).2.cell, avv.cell) ::
                    (c2.assign_advice c avv.value).1.backend.eqConstraints
                rw [hc, hcc]
              · have h1 := constrain_equal_not_mem
                  (c1.assign_advice c avv.value).1
                  (c1.assign_advice c avv.value).2.cell avv.cell hen
                have hen2 : ¬((c2.assign_advice c avv.value).2.cell.col ∈
                    (c2.assign_advice c avv.value).1.backend.eqEnabled ∧
                    avv.cell.col ∈
                    (c2.assign_advice c avv.value).1.backend.eqEnabled) := by
                  rw [← hcc, ← he]
                  exact hen
                have h2 := constrain_equal_not_mem
                  (c2.assign_advice c avv.value).1
                  (c2.assign_advice c avv.value).2.cell avv.cell hen2
                rw [h1, h2]
                dsimp only
                exact ⟨⟨ho, ha, hc, he, hf⟩, rfl⟩

theorem writeState_ctxREq {F : Type} [Field F] (cfg : MainGateConfig)
    (st : Option (List (WrapValue F))) {c1 c2 : RegionCtx F}
    (h : ctxREq c1 c2) :
    ctxREq (writeState cfg st c1).1 (writeState cfg st c2).1 ∧
    (writeState cfg st c1).2 = (writeState cfg st c2).2 := by
  cases st with
  | none => exact ⟨h, rfl⟩
  | some vs => exact writeStateSeq_ctxREq vs cfg.state h

theorem writeOut_ctxREq {F : Type} [Field F] (cfg : MainGateConfig)
    (w : WrapValue F) {c1 c2 : RegionCtx F} (h : ctxREq c1 c2) :
    ctxREq (writeOut cfg w c1).1 (writeOut cfg w c2).1 ∧
    (writeOut cfg w c1).2 = (writeOut cfg w c2).2 := by
  cases w with
  | Unassigned vv =>
      obtain ⟨hR, hcell⟩ := assign_advice_ctxREq h cfg.out vv
      exact ⟨hR, by
        show Except.ok (c1.assign_advice cfg.out vv).2 =
          Except.ok (c2.assign_advice cfg.out vv).2
        rw [hcell]⟩
  | Zero => exact ⟨h, rfl⟩
  | Assigned avv =>
      obtain ⟨hR, hcell⟩ := assign_advice_ctxREq h cfg.out avv.value
      have hcc : (c1.assign_advice cfg.out avv.value).2.cell =
          (c2.assign_advice cfg.out avv.value).2.cell :=
        congrArg AssignedValue.cell hcell
      rw [show writeOut cfg (.Assigned avv) c1 =
          match (c1.assign_advice cfg.out avv.value).1.constrain_equal
              (c1.assign_advice cfg.out avv.value).2.cell avv.cell with
          | .ok ctx2 => (ctx2, .ok (c1.assign_advice cfg.out avv.value).2)
          | .error er =>
              ((c1.assign_advice cfg.out avv.value).1, .error er) from rfl,
        show writeOut cfg (.Assigned avv) c2 =
          match (c2.assign_advice cfg.out avv.value).1.constrain_equal
              (c2.assign_advice cfg.out avv.value).2.cell avv.cell with
          | .ok ctx2 => (ctx2, .ok (c2.assign_advice cfg.out avv.value).2)
          | .error er =>
              ((c2.assign_advice cfg.out avv.value).1, .error er) from rfl]
      obtain ⟨ho, ha, hc, he, hf⟩ := hR
      by_cases hen : ((c1.assign_advice cfg.out avv.value).2.cell.col ∈
          (c1.assign_advice cfg.out avv.value).1.backend.eqEnabled ∧
          avv.cell.col ∈
          (c1.assign_advice cfg.out avv.value).1.backend.eqEnabled)
      · have h1 := constrain_equal_ok_of_mem
          (c1.assign_advice cfg.out avv.value).1
          (c1.assign_advice cfg.out avv.value).2.cell avv.cell hen.1 hen.2
        have hen2 : ((c2.assign_advice cfg.out avv.value).2.cell.col ∈
            (c2.assign_advice cfg.out avv.value).1.backend.eqEnabled ∧
            avv.cell.col ∈
            (c2.assign_advice cfg.out avv.value).1.backend.eqEnabled) := by
          rw [← hcc, ← he]
          exact hen
        have h2 := constrain_equal_ok_of_mem
          (c2.assign_advice cfg.out avv.value).1
          (c2.assign_advice cfg.out avv.value).2.cell avv.cell hen2.1 hen2.2
        rw [h1, h2]
        dsimp only
        refine ⟨⟨ho, ha, ?_, he, hf⟩, by rw [hcell]⟩
        show ((c1.assign_advice cfg.out avv.value).2.cell, avv.cell) ::
            (c1.assign_advice cfg.out avv.value).1.backend.eqConstraints =
          ((c2.assign_advice cfg.out avv.value).2.cell, avv.cell) ::
            (c2.assign_advice cfg.out avv.value).1.backend.eqConstraints
        rw [hc, hcc]
      · have h1 := constrain_equal_not_mem
          (c1.assign_advice cfg.out avv.value).1
          (c1.assign_advice cfg.out avv.value).2.cell avv.cell hen
        have hen2 : ¬((c2.assign_advice cfg.out avv.value).2.cell.col ∈
            (c2.assign_advice cfg.out avv.value).1.backend.eqEnabled ∧
            avv.cell.col ∈
            (c2.assign_advice cfg.out avv.value).1.backend.eqEnabled) := by
          rw [← hcc, ← he]
          exact hen
        have h2 := constrain_equal_not_mem
          (c2.assign_advice cfg.out avv.value).1
          (c2.assign_advice cfg.out avv.value).2.cell avv.cell hen2
        rw [h1, h2]
        dsimp only
        exact ⟨⟨ho, ha, hc, he, hf⟩, rfl⟩

theorem lookupCell_mem {α : Type} : ∀ (l : List (CellRef × α)) (c : CellRef)
    (v : α), lookupCell l c = some v → (c, v) ∈ l := by
  intro l
  induction l with
  | nil => intro c v h; simp [lookupCell] at h
  | cons e es ih =>
      intro c v h
      obtain ⟨e1, e2⟩ := e
      rw [show lookupCell ((e1, e2) :: es) c =
          if (e1, e2).1 = c then some (e1, e2).2 else lookupCell es c from rfl] at h
      by_cases he : (e1, e2).1 = c
      · rw [if_pos he] at h
        have hv := Option.some.inj h
        subst hv
        subst he
        exact List.mem_cons_self _ _
      · rw [if_neg he] at h
        exact List.mem_cons_of_mem _ (ih c v h)

theorem zip_eq_zip_take {α β : Type} : ∀ (xs : List α) (ys : List β),
    xs.zip ys = (xs.take ys.length).zip ys := by
  intro xs
  induction xs with
  | nil => intro ys; simp
  | cons x xs ih =>
      intro ys
      cases ys with
      | nil => simp
      | cons y ys =>
          simp only [List.zip_cons_cons, List.length_cons, List.take_succ_cons]
          rw [ih ys]

theorem revZipF_mem_elem {F : Type} (cols : List Nat) (vals : List F)
    (row : Nat) (e : CellRef × F) (h : e ∈ revZipF cols vals row) :
    e.1.row = row ∧ e.1.col ∈ cols.take vals.length ∧ e.2 ∈ vals := by
  unfold revZipF at h
  rw [List.mem_reverse, List.mem_map] at h
  obtain ⟨p, hp, hfp⟩ := h
  rw [zip_eq_zip_take] at hp
  obtain ⟨pc, pv⟩ := p
  have hm := List.of_mem_zip hp
  subst hfp
  exact ⟨rfl, hm.1, hm.2⟩

theorem revZipF_lookup_some {F : Type} (cols : List Nat) (vals : List F)
    (row : Nat) (cell : CellRef) (v : F)
    (h : lookupCell (revZipF cols vals row) cell = some v) :
    cell.row = row ∧ cell.col ∈ cols.take vals.length ∧ v ∈ vals :=
  revZipF_mem_elem cols vals row (cell, v) (lookupCell_mem _ _ _ h)

theorem revZipF_append {F : Type} : ∀ (l zs : List F) (cols : List Nat)
    (row : Nat), l.length ≤ cols.length →
    revZipF cols (l ++ zs) row =
      revZipF (cols.drop l.length) zs row ++ revZipF cols l row := by
  intro l
  induction l with
  | nil =>
      intro zs cols row _
      simp [revZipF]
  | cons a l' ih =>
      intro zs cols row hlen
      cases cols with
      | nil => simp at hlen
      | cons c cs =>
          simp only [List.cons_append]
          rw [revZipF_cons, ih zs cs row (by simpa using hlen), revZipF_cons,
            List.append_assoc]
          rfl

/-- Padding the provided `q_1` vector with explicit field zeros (including
providing one where none was provided) succeeds, and leaves a cursor in
the `ctxREq` relation with the unpadded run, provided the padded vector
still fits, the `q_1` columns are distinct, and the row's `q_1` fixed
cells were not previously written. -/
theorem writeQ1_zeros_rel {F : Type} [Field F] (cfg : MainGateConfig)
    (q1opt : Option (List F)) (k : Nat) (ctx : RegionCtx F)
    (hlen : (q1opt.getD []).length + k ≤ cfg.q_1.length)
    (hnd : cfg.q_1.Nodup)
    (hfresh : ∀ c ∈ cfg.q_1,
      lookupCell ctx.backend.fixedCells ⟨c, ctx.offset⟩ = none) :
    (writeQ1 cfg q1opt ctx).2 = .ok () ∧
    (writeQ1 cfg (some (q1opt.getD [] ++ List.replicate k (0 : F))) ctx).2 =
      .ok () ∧
    ctxREq (writeQ1 cfg q1opt ctx).1
      (writeQ1 cfg (some (q1opt.getD [] ++ List.replicate k 0)) ctx).1 := by
  have h1 : writeQ1 cfg q1opt ctx =
      ({ ctx with backend := { ctx.backend with
          fixedCells := revZipF cfg.q_1 (q1opt.getD []) ctx.offset ++
            ctx.backend.fixedCells } }, .ok ()) := by
    cases q1opt with
    | none =>
        rw [Option.getD_none]
        show (ctx, Except.ok ()) = _
        rw [show revZipF cfg.q_1 ([] : List F) ctx.offset = [] from by
          simp [revZipF]]
        rfl
    | some l =>
        rw [Option.getD_some]
        rw [Option.getD_some] at hlen
        show writeFixedSeq cfg.q_1 l ctx = _
        rw [writeFixedSeq_eq]
        rw [if_pos (by omega)]
  have h2 : writeQ1 cfg (some (q1opt.getD [] ++ List.replicate k (0 : F))) ctx =
      ({ ctx with backend := { ctx.backend with
          fixedCells := revZipF cfg.q_1
              (q1opt.getD [] ++ List.replicate k 0) ctx.offset ++
            ctx.backend.fixedCells } }, .ok ()) := by
    show writeFixedSeq cfg.q_1 (q1opt.getD [] ++ List.replicate k 0) ctx = _
    rw [writeFixedSeq_eq]
    rw [if_pos (by rw [List.length_append, List.length_replicate]; exact hlen)]
  refine ⟨by rw [h1], by rw [h2], ?_⟩
  rw [h1, h2]
  refine ⟨rfl, rfl, rfl, rfl, ?_⟩
  intro cell
  obtain ⟨ccol, crow⟩ := cell
  show (lookupCell (revZipF cfg.q_1 (q1opt.getD []) ctx.offset ++
      ctx.backend.fixedCells) ⟨ccol, crow⟩).getD 0 =
    (lookupCell (revZipF cfg.q_1 (q1opt.getD [] ++ List.replicate k 0)
        ctx.offset ++ ctx.backend.fixedCells) ⟨ccol, crow⟩).getD 0
  rw [revZipF_append (q1opt.getD []) (List.replicate k 0) cfg.q_1 ctx.offset
    (by omega)]
  rw [List.append_assoc]
  cases hB : lookupCell (revZipF (cfg.q_1.drop (q1opt.getD []).length)
      (List.replicate k (0 : F)) ctx.offset) ⟨ccol, crow⟩ with
  | none => rw [lookupCell_append_none _ _ _ hB]
  | some v =>
      rw [lookupCell_append_some _ _ _ _ hB]
      obtain ⟨hrow, hcol, hv⟩ := revZipF_lookup_some _ _ _ _ _ hB
      have hrow' : crow = ctx.offset := hrow
      have hv0 : v = 0 := List.eq_of_mem_replicate hv
      have hcolD : ccol ∈ cfg.q_1.drop (q1opt.getD []).length :=
        List.take_subset _ _ hcol
      have hnotT : ccol ∉ cfg.q_1.take (q1opt.getD []).length := fun hm =>
        (List.disjoint_take_drop hnd le_rfl) hm hcolD
      have hA : lookupCell (revZipF cfg.q_1 (q1opt.getD []) ctx.offset)
          ⟨ccol, crow⟩ = none := by
        cases hA' : lookupCell (revZipF cfg.q_1 (q1opt.getD []) ctx.offset)
            ⟨ccol, crow⟩ with
        | none => rfl
        | some w =>
            obtain ⟨hr2, hcolA, hw2⟩ := revZipF_lookup_some _ _ _ _ _ hA'
            exact absurd hcolA hnotT
      rw [lookupCell_append_none _ _ _ hA]
      have hold : lookupCell ctx.backend.fixedCells ⟨ccol, crow⟩ = none := by
        rw [show (⟨ccol, crow⟩ : CellRef) = ⟨ccol, ctx.offset⟩ from by
          rw [hrow']]
        exact hfresh ccol (List.drop_subset _ _ hcolD)
      rw [hold, hv0]
      rfl

/-- C7: an `apply` call with `q_1` entries omitted — the optional `q_1`
argument absent, or a vector `k` entries short of covering the `q_1`
columns — is equivalent to the identical call with those entries
explicitly the field zero: both runs return the same result, leave the
cursor at the same offset with the same advice cells and the same
equality constraints, and the two resulting backends accept exactly the
same assignments under any registered gates (the omitted entry's fixed
cell reads as the backend's zero default, so its linear term vanishes
either way).  The hypotheses say the padded vector still fits in `q_1`,
the `q_1` columns are distinct, and the row's `q_1` fixed cells were not
previously written. -/
theorem q1_omission_equiv_explicit_zero {F : Type} [Field F]
    (cfg : MainGateConfig) (ctx : RegionCtx F) (q1opt : Option (List F))
    (k : Nat) (qm : Option F) (st : Option (List (WrapValue F)))
    (rcv : Option F) (qo : F) (outw : WrapValue F)
    (hlen : (q1opt.getD []).length + k ≤ cfg.q_1.length)
    (hnd : cfg.q_1.Nodup)
    (hfresh : ∀ c ∈ cfg.q_1,
      lookupCell ctx.backend.fixedCells ⟨c, ctx.offset⟩ = none) :
    (MainGate.apply cfg ctx (q1opt, qm, st) rcv (qo, outw)).2 =
      (MainGate.apply cfg ctx (some (q1opt.getD [] ++ List.replicate k 0),
        qm, st) rcv (qo, outw)).2 ∧
    (MainGate.apply cfg ctx (q1opt, qm, st) rcv (qo, outw)).1.offset =
      (MainGate.apply cfg ctx (some (q1opt.getD [] ++ List.replicate k 0),
        qm, st) rcv (qo, outw)).1.offset ∧
    (MainGate.apply cfg ctx (q1opt, qm, st) rcv
        (qo, outw)).1.backend.adviceCells =
      (MainGate.apply cfg ctx (some (q1opt.getD [] ++ List.replicate k 0),
        qm, st) rcv (qo, outw)).1.backend.adviceCells ∧
    (MainGate.apply cfg ctx (q1opt, qm, st) rcv
        (qo, outw)).1.backend.eqConstraints =
      (MainGate.apply cfg ctx (some (q1opt.getD [] ++ List.replicate k 0),
        qm, st) rcv (qo, outw)).1.backend.eqConstraints ∧
    ∀ (gates : List (Expression F)) (asg : CellRef → F),
      accepts gates
        (MainGate.apply cfg ctx (q1opt, qm, st) rcv (qo, outw)).1.backend
        asg ↔
      accepts gates
        (MainGate.apply cfg ctx (some (q1opt.getD [] ++ List.replicate k 0),
          qm, st) rcv (qo, outw)).1.backend asg := by
  have hd1 := apply_decomp cfg ctx q1opt qm st rcv qo outw
  have hd2 := apply_decomp cfg ctx
    (some (q1opt.getD [] ++ List.replicate k 0)) qm st rcv qo outw
  obtain ⟨hok1, hok2, hR1⟩ := writeQ1_zeros_rel cfg q1opt k ctx hlen hnd hfresh
  rcases hp1 : writeQ1 cfg q1opt ctx with ⟨c1a, u1a⟩
  rcases hp2 : writeQ1 cfg (some (q1opt.getD [] ++ List.replicate k 0)) ctx
    with ⟨c1b, u1b⟩
  rw [hp1] at hok1 hR1 hd1
  rw [hp2] at hok2 hR1 hd2
  dsimp only at hok1 hok2 hR1
  subst hok1
  subst hok2
  dsimp only at hd1 hd2
  have hR2 := writeOptFixed_ctxREq hR1 cfg.q_m qm
  have hS := writeState_ctxREq cfg st hR2
  rcases hq1 : writeState cfg st (writeOptFixed cfg.q_m qm c1a) with ⟨c3a, u3a⟩
  rcases hq2 : writeState cfg st (writeOptFixed cfg.q_m qm c1b) with ⟨c3b, u3b⟩
  rw [hq1, hq2] at hS
  obtain ⟨hR3, hu3⟩ := hS
  dsimp only at hR3 hu3
  rw [hq1] at hd1
  rw [hq2] at hd2
  cases u3a with
  | error e =>
      rw [← hu3] at hd2
      dsimp only at hd1 hd2
      rw [hd1, hd2]
      exact ⟨rfl, hR3.1, hR3.2.1, hR3.2.2.1, fun gates asg =>
        accepts_congr gates _ _ hR3.2.2.1 hR3.2.2.2.2 asg⟩
  | ok u =>
      rw [← hu3] at hd2
      dsimp only at hd1 hd2
      have hR4 := (assign_fixed_ctxREq
        (writeOptFixed_ctxREq hR3 cfg.rc rcv) cfg.q_o qo).1
      have hO := writeOut_ctxREq cfg outw hR4
      rcases ho1 : writeOut cfg outw
          (((writeOptFixed cfg.rc rcv c3a).assign_fixed cfg.q_o qo).1)
        with ⟨c6a, w6a⟩
      rcases ho2 : writeOut cfg outw
          (((writeOptFixed cfg.rc rcv c3b).assign_fixed cfg.q_o qo).1)
        with ⟨c6b, w6b⟩
      rw [ho1, ho2] at hO
      obtain ⟨hR6, hw6⟩ := hO
      dsimp only at hR6 hw6
      rw [ho1] at hd1
      rw [ho2] at hd2
      cases w6a with
      | error e =>
          rw [← hw6] at hd2
          dsimp only at hd1 hd2
          rw [hd1, hd2]
          exact ⟨rfl, hR6.1, hR6.2.1, hR6.2.2.1, fun gates asg =>
            accepts_congr gates _ _ hR6.2.2.1 hR6.2.2.2.2 asg⟩
      | ok res =>
          rw [← hw6] at hd2
          dsimp only at hd1 hd2
          rw [hd1, hd2]
          refine ⟨rfl, ?_, hR6.2.1, hR6.2.2.1, fun gates asg =>
            accepts_congr gates _ _ hR6.2.2.1 hR6.2.2.2.2 asg⟩
          show c6a.offset + 1 = c6b.offset + 1
          rw [hR6.1]

/-- Concrete instance of the `q_1`-omission equivalence: on the width-2
example layout, the call with `q_1` absent agrees with the call providing
the explicit zero vector padded to one entry. -/
theorem q1_omission_equiv_explicit_zero_witness :
    (MainGate.apply exCfg exCtx ((none : Option (List F5)), none, none) none
        (1, WrapValue.Unassigned (some 1))).2 =
      (MainGate.apply exCfg exCtx
          (some ((none : Option (List F5)).getD [] ++ List.replicate 1 0),
            none, none) none (1, WrapValue.Unassigned (some 1))).2 ∧
    (MainGate.apply exCfg exCtx ((none : Option (List F5)), none, none) none
        (1, WrapValue.Unassigned (some 1))).1.offset =
      (MainGate.apply exCfg exCtx
          (some ((none : Option (List F5)).getD [] ++ List.replicate 1 0),
            none, none) none (1, WrapValue.Unassigned (some 1))).1.offset ∧
    (MainGate.apply exCfg exCtx ((none : Option (List F5)), none, none) none
        (1, WrapValue.Unassigned (some 1))).1.backend.adviceCells =
      (MainGate.apply exCfg exCtx
          (some ((none : Option (List F5)).getD [] ++ List.replicate 1 0),
            none, none) none
          (1, WrapValue.Unassigned (some 1))).1.backend.adviceCells ∧
    (MainGate.apply exCfg exCtx ((none : Option (List F5)), none, none) none
        (1, WrapValue.Unassigned (some 1))).1.backend.eqConstraints =
      (MainGate.apply exCfg exCtx
          (some ((none : Option (List F5)).getD [] ++ List.replicate 1 0),
            none, none) none
          (1, WrapValue.Unassigned (some 1))).1.backend.eqConstraints ∧
    ∀ (gates : List (Expression F5)) (asg : CellRef → F5),
      accepts gates
        (MainGate.apply exCfg exCtx ((none : Option (List F5)), none, none)
          none (1, WrapValue.Unassigned (some 1))).1.backend asg ↔
      accepts gates
        (MainGate.apply exCfg exCtx
          (some ((none : Option (List F5)).getD [] ++ List.replicate 1 0),
            none, none) none
          (1, WrapValue.Unassigned (some 1))).1.backend asg :=
  q1_omission_equiv_explicit_zero exCfg exCtx none 1 none none none 1
    (WrapValue.Unassigned (some 1)) (by decide) (by decide) (by decide)

theorem lookupCell_eq_of_mem {α : Type} : ∀ (l : List (CellRef × α))
    (c : CellRef) (v : α), (c, v) ∈ l → (∀ v', (c, v') ∈ l → v' = v) →
    lookupCell l c = some v := by
  intro l
  induction l with
  | nil => intro c v h _; simp at h
  | cons e es ih =>
      intro c v hm hu
      obtain ⟨e1, e2⟩ := e
      by_cases he : e1 = c
      · subst he
        rw [lookupCell_cons_self]
        rw [hu e2 (List.mem_cons_self _ _)]
      · rw [lookupCell_cons_ne _ _ _ _ he]
        refine ih c v ?_ ?_
        · cases List.mem_cons.1 hm with
          | inl h => exact absurd (congrArg Prod.fst h).symm he
          | inr h => exact h
        · intro v' hv'
          exact hu v' (List.mem_cons_of_mem _ hv')

theorem mem_zip_unique {F : Type} : ∀ (cols : List Nat) (vals : List F)
    (c : Nat) (a b : F), cols.Nodup → (c, a) ∈ cols.zip vals →
    (c, b) ∈ cols.zip vals → a = b := by
  intro cols
  induction cols with
  | nil => intro vals c a b _ ha _; simp at ha
  | cons c0 cs ih =>
      intro vals c a b hnd ha hb
      cases vals with
      | nil => simp at ha
      | cons v0 vs =>
          rw [List.zip_cons_cons] at ha hb
          cases List.mem_cons.1 ha with
          | inl h =>
              have hv : a = v0 := congrArg Prod.snd h
              cases List.mem_cons.1 hb with
              | inl h2 => exact hv.trans (congrArg Prod.snd h2).symm
              | inr h2 =>
                  have hc : c = c0 := congrArg Prod.fst h
                  have hcs := (List.of_mem_zip h2).1
                  rw [hc] at hcs
                  exact absurd hcs (List.nodup_cons.1 hnd).1
          | inr h =>
              cases List.mem_cons.1 hb with
              | inl h2 =>
                  have hc : c = c0 := congrArg Prod.fst h2
                  have hcs := (List.of_mem_zip h).1
                  rw [hc] at hcs
                  exact absurd hcs (List.nodup_cons.1 hnd).1
              | inr h2 => exact ih vs c a b (List.nodup_cons.1 hnd).2 h h2

theorem revZipF_mem_iff_zip {F : Type} (cols : List Nat) (vals : List F)
    (row : Nat) (c : Nat) (v : F) :
    ((⟨c, row⟩, v) : CellRef × F) ∈ revZipF cols vals row ↔
      (c, v) ∈ cols.zip vals := by
  unfold revZipF
  rw [List.mem_reverse, List.mem_map]
  constructor
  · rintro ⟨p, hp, hfp⟩
    obtain ⟨pc, pv⟩ := p
    have h1 : pc = c := congrArg (fun q : CellRef × F => q.1.col) hfp
    have h2 : pv = v := congrArg Prod.snd hfp
    rw [← h1, ← h2]
    exact hp
  · intro h
    exact ⟨(c, v), h, rfl⟩

theorem revZipF_lookup_written {F : Type} (d : F) (cols : List Nat)
    (vals : List F) (row i : Nat) (hnd : cols.Nodup) (hi : i < vals.length)
    (hlen : vals.length ≤ cols.length) :
    lookupCell (revZipF cols vals row) ⟨cols.getD i 0, row⟩ =
      some (vals.getD i d) := by
  refine lookupCell_eq_of_mem _ _ _ (revZipF_mem d vals cols row i hi hlen) ?_
  intro v' hv'
  exact mem_zip_unique cols vals (cols.getD i 0) v' (vals.getD i d) hnd
    ((revZipF_mem_iff_zip _ _ _ _ _).1 hv')
    ((revZipF_mem_iff_zip _ _ _ _ _).1 (revZipF_mem d vals cols row i hi hlen))

theorem revZipA_cons {F : Type} (c : Nat) (cs : List Nat) (v : F)
    (vs : List F) (row : Nat) :
    revZipA (c :: cs) (v :: vs) row =
      revZipA cs vs row ++ [(⟨c, row⟩, some v)] := by
  simp [revZipA]

theorem revZipA_mem {F : Type} (d : F) (vals : List F) :
    ∀ (cols : List Nat) (row i : Nat),
    i < vals.length → vals.length ≤ cols.length →
    ((⟨cols.getD i 0, row⟩, some (vals.getD i d)) : CellRef × Option F) ∈
      revZipA cols vals row := by
  induction vals with
  | nil =>
      intro cols row i hi
      simp at hi
  | cons v vs ih =>
      intro cols row i hi hlen
      cases cols with
      | nil => simp at hlen
      | cons c cs =>
          rw [revZipA_cons]
          cases i with
          | zero =>
              simp only [List.getD_cons_zero]
              exact List.mem_append_right _ (by simp)
          | succ j =>
              simp only [List.getD_cons_succ]
              exact List.mem_append_left _
                (ih cs row j (by simpa using hi) (by simpa using hlen))

theorem specTerms_zero {F : Type} [Field F] : ∀ (s q1 q5 : List F),
    (∀ x ∈ q5, x = 0) → min s.length q1.length ≤ q5.length →
    (specTerms s q1 q5).sum =
      (List.zipWith (fun a b => a * b) q1 s).sum := by
  intro s
  induction s with
  | nil => intro q1 q5 _ _; cases q1 <;> cases q5 <;> simp [specTerms]
  | cons sv ss ih =>
      intro q1 q5 h5 hlen
      cases q1 with
      | nil => cases q5 <;> simp [specTerms]
      | cons a as =>
          cases q5 with
          | nil =>
              simp only [List.length_cons, List.length_nil] at hlen
              omega
          | cons b bs =>
              rw [show specTerms (sv :: ss) (a :: as) (b :: bs) =
                (a * sv + b * sv ^ 5) :: specTerms ss as bs from rfl]
              rw [show List.zipWith (fun a b => a * b) (a :: as) (sv :: ss) =
                (a * sv) :: List.zipWith (fun a b => a * b) as ss from rfl]
              rw [List.sum_cons, List.sum_cons]
              rw [ih as bs (fun x hx => h5 x (List.mem_cons_of_mem _ hx))
                (by simp only [List.length_cons] at hlen; omega)]
              rw [h5 b (List.mem_cons_self _ _)]
              ring

/-- C1 counterexample: a successful `apply` call on the configured layout
whose written row violates the registered identity.  The call writes only
`q_o = 1` and the output advice value `1`; the advice valuation that reads
`1` on the `out` column extends everything the call wrote, yet the
registered identity evaluates to `1 ≠ 0` on that row — `apply` never
checks the identity it is supposed to establish. -/
theorem apply_identity_not_enforced_cx :
    (MainGate.apply exCfg exCtx ((none : Option (List F5)), none, none) none
        (1, WrapValue.Unassigned (some 1))).2 =
      .ok ⟨some 1, ⟨exCfg.out, 0⟩⟩ ∧
    extendsRow (MainGate.apply exCfg exCtx ((none : Option (List F5)), none,
        none) none (1, WrapValue.Unassigned (some 1))).1.backend 0
      (fun c => if c = 3 then (1 : F5) else 0) ∧
    ¬ rowSatisfied exMeta.gates
        (MainGate.apply exCfg exCtx ((none : Option (List F5)), none, none)
          none (1, WrapValue.Unassigned (some 1))).1.backend 0
        (fun c => if c = 3 then (1 : F5) else 0) :=
  ⟨rfl, by decide, by decide⟩

/-- Row-identity evaluation for a backend whose current row holds exactly
the cells a fully supplied `apply` call writes: under any advice valuation
extending the written advice values, the registered identity holds on the
row iff the written values satisfy
`q_m*s0*s1 + Σ q_1[i]*s[i] + q_o*out + rc = 0` (the `q_5` and `q_i`
selectors were not written, so their cells read the zero default and their
terms vanish). -/
theorem row_identity_eval_of_written {F : Type} [Field F]
    (cfg : MainGateConfig) (off : Nat) (oldF : List (CellRef × F))
    (oldA : List (CellRef × Option F)) (ecs : List (CellRef × CellRef))
    (en : List Nat) (l1 vs : List F) (m rv qo o : F) (asg : Nat → F)
    (b : Backend F)
    (hb : b = ⟨(⟨cfg.q_o, off⟩, qo) :: (⟨cfg.rc, off⟩, rv) ::
        (⟨cfg.q_m, off⟩, m) :: (revZipF cfg.q_1 l1 off ++ oldF),
      (⟨cfg.out, off⟩, some o) :: (revZipA cfg.state vs off ++ oldA),
      ecs, en⟩)
    (hl1 : l1.length = cfg.q_1.length)
    (hvs : vs.length = cfg.state.length)
    (h51 : cfg.q_5.length = cfg.state.length)
    (h1s : cfg.q_1.length = cfg.state.length)
    (hnd1 : cfg.q_1.Nodup)
    (hqm : cfg.q_m ≠ cfg.q_o ∧ cfg.q_m ≠ cfg.rc)
    (hq1sep : ∀ c ∈ cfg.q_1, c ≠ cfg.q_m ∧ c ≠ cfg.q_o ∧ c ≠ cfg.rc)
    (hq5sep : ∀ c ∈ cfg.q_5,
      c ∉ cfg.q_1 ∧ c ≠ cfg.q_m ∧ c ≠ cfg.q_o ∧ c ≠ cfg.rc)
    (hqisep : cfg.q_i ∉ cfg.q_1 ∧ cfg.q_i ≠ cfg.q_m ∧ cfg.q_i ≠ cfg.q_o ∧
      cfg.q_i ≠ cfg.rc)
    (hrcqo : cfg.rc ≠ cfg.q_o)
    (hfresh : ∀ c : Nat, lookupCell oldF ⟨c, off⟩ = none)
    (hext : extendsRow b off asg) :
    rowSatisfied [mainGatePoly cfg] b off asg ↔
      m * vs.getD 0 0 * vs.getD 1 0 +
        (List.zipWith (fun a b => a * b) l1 vs).sum + qo * o + rv = 0 := by
  have hfix : b.fixedCells = (⟨cfg.q_o, off⟩, qo) :: (⟨cfg.rc, off⟩, rv) ::
      (⟨cfg.q_m, off⟩, m) :: (revZipF cfg.q_1 l1 off ++ oldF) := by rw [hb]
  have hadv : b.adviceCells = (⟨cfg.out, off⟩, some o) ::
      (revZipA cfg.state vs off ++ oldA) := by rw [hb]
  have hout : asg cfg.out = o := by
    have h := hext (⟨cfg.out, off⟩, some o)
      (by rw [hadv]; exact List.mem_cons_self _ _) rfl
    exact h
  have hstateD : ∀ j, j < cfg.state.length →
      asg (cfg.state.getD j 0) = vs.getD j 0 := by
    intro j hj
    have h := hext (⟨cfg.state.getD j 0, off⟩, some (vs.getD j 0))
      (by rw [hadv]
          exact List.mem_cons_of_mem _ (List.mem_append_left _
            (revZipA_mem 0 vs cfg.state off j (by omega) (le_of_eq hvs))))
      rfl
    exact h
  have hsmap : cfg.state.map asg = vs := by
    refine list_eq_of_getD 0 _ _ (by rw [List.length_map]; exact hvs.symm) ?_
    intro j hj
    rw [List.length_map] at hj
    rw [getD_map_lt cfg.state asg j hj]
    exact hstateD j hj
  have hfqo : fixedValD b ⟨cfg.q_o, off⟩ = qo := by
    show (lookupCell b.fixedCells ⟨cfg.q_o, off⟩).getD 0 = qo
    rw [hfix, lookupCell_cons_self]
    rfl
  have hfrc : fixedValD b ⟨cfg.rc, off⟩ = rv := by
    show (lookupCell b.fixedCells ⟨cfg.rc, off⟩).getD 0 = rv
    rw [hfix,
      lookupCell_cons_ne _ _ _ _
        (fun h => hrcqo (congrArg CellRef.col h).symm),
      lookupCell_cons_self]
    rfl
  have hfqm : fixedValD b ⟨cfg.q_m, off⟩ = m := by
    show (lookupCell b.fixedCells ⟨cfg.q_m, off⟩).getD 0 = m
    rw [hfix,
      lookupCell_cons_ne _ _ _ _
        (fun h => hqm.1 (congrArg CellRef.col h).symm),
      lookupCell_cons_ne _ _ _ _
        (fun h => hqm.2 (congrArg CellRef.col h).symm),
      lookupCell_cons_self]
    rfl
  have hnone : ∀ c : Nat, c ≠ cfg.q_o → c ≠ cfg.rc → c ≠ cfg.q_m →
      c ∉ cfg.q_1 → fixedValD b ⟨c, off⟩ = 0 := by
    intro c h1 h2 h3 h4
    show (lookupCell b.fixedCells ⟨c, off⟩).getD 0 = 0
    rw [hfix,
      lookupCell_cons_ne _ _ _ _
        (fun h => h1 (congrArg CellRef.col h).symm),
      lookupCell_cons_ne _ _ _ _
        (fun h => h2 (congrArg CellRef.col h).symm),
      lookupCell_cons_ne _ _ _ _
        (fun h => h3 (congrArg CellRef.col h).symm)]
    have hA : lookupCell (revZipF cfg.q_1 l1 off) ⟨c, off⟩ = none := by
      cases hA' : lookupCell (revZipF cfg.q_1 l1 off) ⟨c, off⟩ with
      | none => rfl
      | some w =>
          obtain ⟨hr, hcA, hw⟩ := revZipF_lookup_some _ _ _ _ _ hA'
          exact absurd (List.take_subset _ _ hcA) h4
    rw [lookupCell_append_none _ _ _ hA, hfresh c]
    rfl
  have hfqi : fixedValD b ⟨cfg.q_i, off⟩ = 0 :=
    hnone cfg.q_i hqisep.2.2.1 hqisep.2.2.2 hqisep.2.1 hqisep.1
  have hq5zero : ∀ x ∈ cfg.q_5.map (fun c => fixedValD b ⟨c, off⟩),
      x = 0 := by
    intro x hx
    rw [List.mem_map] at hx
    obtain ⟨c, hc, hcx⟩ := hx
    rw [← hcx]
    exact hnone c (hq5sep c hc).2.2.1 (hq5sep c hc).2.2.2
      (hq5sep c hc).2.1 (hq5sep c hc).1
  have hq1D : ∀ j, j < cfg.q_1.length →
      fixedValD b ⟨cfg.q_1.getD j 0, off⟩ = l1.getD j 0 := by
    intro j hj
    have hsep := hq1sep _ (getD_mem hj)
    show (lookupCell b.fixedCells ⟨cfg.q_1.getD j 0, off⟩).getD 0 =
      l1.getD j 0
    rw [hfix,
      lookupCell_cons_ne _ _ _ _
        (fun h => hsep.2.1 (congrArg CellRef.col h).symm),
      lookupCell_cons_ne _ _ _ _
        (fun h => hsep.2.2 (congrArg CellRef.col h).symm),
      lookupCell_cons_ne _ _ _ _
        (fun h => hsep.1 (congrArg CellRef.col h).symm),
      lookupCell_append_some _ _ _ _
        (revZipF_lookup_written 0 cfg.q_1 l1 off j hnd1 (by omega)
          (le_of_eq hl1))]
    rfl
  have hq1map : cfg.q_1.map (fun c => fixedValD b ⟨c, off⟩) = l1 := by
    refine list_eq_of_getD 0 _ _ (by rw [List.length_map]; exact hl1.symm) ?_
    intro j hj
    rw [List.length_map] at hj
    rw [getD_map_lt cfg.q_1 _ j hj]
    exact hq1D j hj
  have hev : (mainGatePoly cfg).eval asg (fun c => fixedValD b ⟨c, off⟩) =
      m * vs.getD 0 0 * vs.getD 1 0 +
        (List.zipWith (fun a b => a * b) l1 vs).sum + qo * o + rv := by
    rw [mainGatePoly_eval]
    rw [hsmap, hq1map, hfqm, hfqi, hfqo, hfrc, hout]
    unfold specRowIdentity
    rw [specTerms_zero vs l1 _ hq5zero (by rw [List.length_map]; omega)]
    ring
  constructor
  · intro hrs
    have h := hrs (mainGatePoly cfg) (List.mem_cons_self _ _)
    rw [hev] at h
    exact h
  · intro h g hg
    have hg' : g = mainGatePoly cfg := by simpa using hg
    rw [hg', hev]
    exact h

/-- C1 (amended): a fully supplied `apply` call — `q_1` vector covering
every `q_1` column, `q_m`, all-`Unassigned` state values, `rc`, `q_o`, and
an `Unassigned` output — succeeds and returns the assigned output cell,
but `apply` itself never checks the registered identity: under any advice
valuation extending the values the call wrote, the row satisfies the
registered identity precisely when the written values themselves satisfy
`q_m*s0*s1 + Σ q_1[i]*s[i] + q_o*out + rc = 0` (the unwritten `q_5` and
`q_i` selector cells read as the backend's zero default, so their terms
vanish).  The hypotheses state the layout's column-distinctness and that
the row's fixed cells were not previously written. -/
theorem apply_row_identity_iff_values_satisfy {F : Type} [Field F]
    (cfg : MainGateConfig) (ctx : RegionCtx F) (l1 vs : List F)
    (m rv qo o : F)
    (hl1 : l1.length = cfg.q_1.length)
    (hvs : vs.length = cfg.state.length)
    (h51 : cfg.q_5.length = cfg.state.length)
    (h1s : cfg.q_1.length = cfg.state.length)
    (hnd1 : cfg.q_1.Nodup)
    (hqm : cfg.q_m ≠ cfg.q_o ∧ cfg.q_m ≠ cfg.rc)
    (hq1sep : ∀ c ∈ cfg.q_1, c ≠ cfg.q_m ∧ c ≠ cfg.q_o ∧ c ≠ cfg.rc)
    (hq5sep : ∀ c ∈ cfg.q_5,
      c ∉ cfg.q_1 ∧ c ≠ cfg.q_m ∧ c ≠ cfg.q_o ∧ c ≠ cfg.rc)
    (hqisep : cfg.q_i ∉ cfg.q_1 ∧ cfg.q_i ≠ cfg.q_m ∧ cfg.q_i ≠ cfg.q_o ∧
      cfg.q_i ≠ cfg.rc)
    (hrcqo : cfg.rc ≠ cfg.q_o)
    (hfresh : ∀ c : Nat,
      lookupCell ctx.backend.fixedCells ⟨c, ctx.offset⟩ = none) :
    (MainGate.apply cfg ctx (some l1, some m,
        some (vs.map fun v => WrapValue.Unassigned (some v))) (some rv)
        (qo, WrapValue.Unassigned (some o))).2 =
      .ok ⟨some o, ⟨cfg.out, ctx.offset⟩⟩ ∧
    ∀ asg : Nat → F,
      extendsRow (MainGate.apply cfg ctx (some l1, some m,
          some (vs.map fun v => WrapValue.Unassigned (some v))) (some rv)
          (qo, WrapValue.Unassigned (some o))).1.backend ctx.offset asg →
      (rowSatisfied [mainGatePoly cfg]
          (MainGate.apply cfg ctx (some l1, some m,
            some (vs.map fun v => WrapValue.Unassigned (some v))) (some rv)
            (qo, WrapValue.Unassigned (some o))).1.backend ctx.offset asg ↔
        m * vs.getD 0 0 * vs.getD 1 0 +
          (List.zipWith (fun a b => a * b) l1 vs).sum + qo * o + rv = 0) := by
  have hd := apply_decomp cfg ctx (some l1) (some m)
    (some (vs.map fun v => WrapValue.Unassigned (some v))) (some rv) qo
    (WrapValue.Unassigned (some o))
  rw [show ∀ c : RegionCtx F, writeQ1 cfg (some l1) c =
      writeFixedSeq cfg.q_1 l1 c from fun c => rfl] at hd
  rw [writeFixedSeq_eq, if_pos (le_of_eq hl1)] at hd
  dsimp only at hd
  rw [show ∀ c : RegionCtx F, writeOptFixed cfg.q_m (some m) c =
      (c.assign_fixed cfg.q_m m).1 from fun c => rfl] at hd
  rw [show ∀ c : RegionCtx F, writeState cfg
      (some (vs.map fun v => WrapValue.Unassigned (some v))) c =
      writeStateSeq cfg.state
        (vs.map fun v => WrapValue.Unassigned (some v)) c
      from fun c => rfl] at hd
  rw [writeStateSeq_unassigned_eq, if_pos (le_of_eq hvs)] at hd
  dsimp only at hd
  rw [show ∀ c : RegionCtx F, writeOptFixed cfg.rc (some rv) c =
      (c.assign_fixed cfg.rc rv).1 from fun c => rfl] at hd
  rw [show ∀ c : RegionCtx F, writeOut cfg (WrapValue.Unassigned (some o)) c =
      ((c.assign_advice cfg.out (some o)).1,
        .ok (c.assign_advice cfg.out (some o)).2) from fun c => rfl] at hd
  dsimp only at hd
  have hR : MainGate.apply cfg ctx (some l1, some m,
      some (vs.map fun v => WrapValue.Unassigned (some v))) (some rv)
      (qo, WrapValue.Unassigned (some o)) =
    (⟨⟨(⟨cfg.q_o, ctx.offset⟩, qo) ::
        (⟨cfg.rc, ctx.offset⟩, rv) :: (⟨cfg.q_m, ctx.offset⟩, m) ::
        (revZipF cfg.q_1 l1 ctx.offset ++ ctx.backend.fixedCells),
      (⟨cfg.out, ctx.offset⟩, some o) ::
        (revZipA cfg.state vs ctx.offset ++ ctx.backend.adviceCells),
      ctx.backend.eqConstraints, ctx.backend.eqEnabled⟩,
      ctx.offset + 1⟩,
     Except.ok ⟨some o, ⟨cfg.out, ctx.offset⟩⟩) :=
    hd.trans rfl
  refine ⟨by rw [hR], ?_⟩
  rw [hR]
  intro asg hext
  exact row_identity_eval_of_written cfg ctx.offset ctx.backend.fixedCells
    ctx.backend.adviceCells ctx.backend.eqConstraints ctx.backend.eqEnabled
    l1 vs m rv qo o asg _ rfl hl1 hvs h51 h1s hnd1 hqm hq1sep hq5sep hqisep
    hrcqo hfresh hext

/-- Concrete instance of the amended row-identity characterization on the
width-2 example layout: the fully supplied call succeeds, and the row
satisfies the identity iff the written values do. -/
theorem apply_row_identity_iff_values_satisfy_witness :
    (MainGate.apply exCfg exCtx (some [(1 : F5), 0], some (0 : F5),
        some (([2, 3] : List F5).map fun v => WrapValue.Unassigned (some v)))
        (some (1 : F5)) ((1 : F5), WrapValue.Unassigned (some (4 : F5)))).2 =
      .ok ⟨some 4, ⟨exCfg.out, exCtx.offset⟩⟩ ∧
    ∀ asg : Nat → F5,
      extendsRow (MainGate.apply exCfg exCtx (some [(1 : F5), 0],
          some (0 : F5),
          some (([2, 3] : List F5).map fun v => WrapValue.Unassigned (some v)))
          (some (1 : F5))
          ((1 : F5), WrapValue.Unassigned (some (4 : F5)))).1.backend
        exCtx.offset asg →
      (rowSatisfied [mainGatePoly exCfg]
          (MainGate.apply exCfg exCtx (some [(1 : F5), 0], some (0 : F5),
            some (([2, 3] : List F5).map fun v =>
              WrapValue.Unassigned (some v)))
            (some (1 : F5))
            ((1 : F5), WrapValue.Unassigned (some (4 : F5)))).1.backend
          exCtx.offset asg ↔
        (0 : F5) * ([2, 3] : List F5).getD 0 0 *
            ([2, 3] : List F5).getD 1 0 +
          (List.zipWith (fun a b => a * b) [(1 : F5), 0]
            ([2, 3] : List F5)).sum + (1 : F5) * 4 + 1 = 0) :=
  apply_row_identity_iff_values_satisfy exCfg exCtx [1, 0] [2, 3] 0 1 1 4
    (by decide) (by decide) (by decide) (by decide) (by decide) (by decide)
    (by decide) (by decide) (by decide) (by decide) (fun c => rfl)
